import Mathlib

/-!
go-nanda: provisioning orchestration (`internal/sdk/nanda_sdk.go`).

A shallow embedding of the SDK's orchestration code.  Go functions become Lean
functions that pass an explicit `World` (working directory, filesystem, and the
ordered record of the external operations performed) and read the outcomes of
the operations they cannot decide themselves (HTTP answers, refused writes,
directory creations and removals, the YAML encoder, the external process, the
random source) from an `Env`.

Conventions
* a Go `error` is its message, `nil` is `none`;
* a Go `int` is an `Int` (64 bits are never exceeded by `+ 100000` on a value
  below `900000`);
* `log.Printf` output, `rand.Seed` and `resp.Body.Close` are not part of the model;
* the filesystem is a finite map from cleaned absolute paths to nodes, without
  symbolic links; permissions are the environment's to decide: a write, a
  directory creation or a removal can be refused (`Env.writeDenied`,
  `Env.mkdirDenied`, `Env.removeDenied`), a refused write, creation or
  `os.Remove` leaves the filesystem as it was, and `os.RemoveAll` removes what
  it is allowed to and leaves the rest, with the directories above it;
* the external tool is consumed through its invocation contract only: its
  exit status and combined output.
-/

namespace Nanda

/-! ## Data model -/

/-- Go error values, represented by their message. -/
abbrev GoError := String

/-- The SDK instance (`type NandaSDK struct`). -/
structure NandaSDK where
  Domain : String
  AgentID : Int
  NumAgents : Int
  RegistryURL : String
deriving DecidableEq, Repr

/-- The Ansible group variables (`type GroupVars struct`). -/
structure GroupVars where
  AnthropicAPIKey : String
  SmitheryAPIKey : String
  DomainName : String
  AgentIDPrefix : Int
  GithubRepo : String
  NumAgents : Int
  RegistryURL : String
deriving DecidableEq, Repr

/-- Outcome of `http.Get` followed, for a response, by `io.ReadAll` on its body. -/
inductive HttpResult where
  | transportError (msg : GoError)
  | response (statusCode : Int) (body : Except GoError String)

/-- The body `getPublicIP` accepts from an endpoint: status 200 and a readable body. -/
def HttpResult.accepted : HttpResult → Option String
  | .transportError _ => none
  | .response statusCode (.ok b) => if statusCode = 200 then some b else none
  | .response _ (.error _) => none

/-- Outcome of `cmd.CombinedOutput()`. -/
inductive ProcResult where
  | startError (msg : GoError)
  | exited (code : Nat) (output : String)

/-- The combined output returned by `cmd.CombinedOutput()`. -/
def ProcResult.output : ProcResult → String
  | .startError _ => ""
  | .exited _ out => out

/-- The error returned by `cmd.CombinedOutput()`: nil exactly for exit status 0. -/
def ProcResult.err : ProcResult → Option GoError
  | .startError msg => some msg
  | .exited 0 _ => none
  | .exited (k + 1) _ => some ("exit status " ++ toString (k + 1))

/-- A cleaned absolute path: its components from the root. -/
abbrev Path := List String

/-- A filesystem node. -/
inductive Node where
  | file (data : String)
  | dir
deriving DecidableEq, Repr

/-- The filesystem: an association list from paths to nodes (first entry wins). -/
abbrev FS := List (Path × Node)

/-- An external operation performed by the program. -/
inductive Op where
  | randIntn (n : Int)
  | httpGet (url : String)
  | writeFile (name : String) (data : String)
  | mkdirAll (name : String)
  | remove (name : String)
  | removeAll (name : String)
  | exec (argv : List String)
deriving DecidableEq, Repr

/-- The state the program acts on. -/
structure World where
  cwd : String
  fs : FS
  trace : List Op
deriving DecidableEq, Repr

/-- What the surroundings answer. -/
structure Env where
  randIntn : Int → Int
  httpGet : String → HttpResult
  writeDenied : Path → Option GoError
  mkdirDenied : Path → Option GoError
  removeDenied : Path → Option GoError
  yamlMarshal : GroupVars → Except GoError String
  combinedOutput : List String → ProcResult

/-- Record an operation at the end of the trace. -/
def World.log (w : World) (op : Op) : World :=
  { w with trace := w.trace ++ [op] }

/-! ## Library model: `strings`, `path/filepath` -/

/-- Go `strings.Contains`: some suffix of `s` starts with `substr`. -/
def strings.Contains (s substr : String) : Bool :=
  s.data.tails.any (fun t => substr.data.isPrefixOf t)

/-- Split at every slash (always at least one piece). -/
def splitSlash : List Char → List (List Char)
  | [] => [[]]
  | c :: cs =>
    if c = '/' then [] :: splitSlash cs
    else
      match splitSlash cs with
      | [] => [[c]]
      | h :: t => (c :: h) :: t

/-- Join pieces with a slash between them. -/
def joinSlash : List (List Char) → List Char
  | [] => []
  | [c] => c
  | c :: cs => c ++ '/' :: joinSlash cs

/-- One component of lexical cleaning; `acc` holds the kept components, last first. -/
def cleanStep (rooted : Bool) (acc : List (List Char)) (comp : List Char) : List (List Char) :=
  if comp = [] ∨ comp = ['.'] then acc
  else if comp = ['.', '.'] then
    match acc with
    | [] => if rooted then [] else [comp]
    | top :: rest => if top = ['.', '.'] then comp :: acc else rest
  else comp :: acc

/-- Lexical cleaning of a component sequence. -/
def cleanComps (rooted : Bool) (comps : List (List Char)) : List (List Char) :=
  (comps.foldl (cleanStep rooted) []).reverse

/-- Go `filepath.IsAbs` (Unix). -/
def filepath.IsAbs (path : String) : Bool :=
  path.data.head? = some '/'

/-- Go `filepath.Clean` (Unix). -/
def filepath.Clean (path : String) : String :=
  let body := joinSlash (cleanComps (filepath.IsAbs path) (splitSlash path.data))
  if filepath.IsAbs path then ⟨'/' :: body⟩
  else if body = [] then "." else ⟨body⟩

/-- Go `filepath.Join` (Unix): leading empty elements are skipped, the rest is
joined with slashes and cleaned. -/
def filepath.Join (elem : List String) : String :=
  match elem.dropWhile (fun e => e = "") with
  | [] => ""
  | es => filepath.Clean ⟨joinSlash (es.map String.data)⟩

/-- Go `filepath.Abs` with `os.Getwd()` answering `cwd` (its error is ignored by the caller). -/
def filepath.Abs (cwd path : String) : String :=
  if filepath.IsAbs path then filepath.Clean path else filepath.Join [cwd, path]

/-- The node a path name designates for the operating system: relative names
start at the working directory; empty and `.` components are skipped, `..`
steps up (the root is its own parent). -/
def resolve (cwd name : String) : Path :=
  let s := if filepath.IsAbs name then name.data else cwd.data ++ '/' :: name.data
  (cleanComps true (splitSlash s)).map String.mk

/-! ## Library model: the filesystem (`os`) -/

/-- The node stored at a path. -/
def FS.node : FS → Path → Option Node
  | [], _ => none
  | (k, n) :: rest, p => if k = p then some n else FS.node rest p

/-- Remove the entry of one path. -/
def FS.drop (fs : FS) (p : Path) : FS :=
  fs.filter (fun e => decide (e.1 ≠ p))

/-- Store a node at a path. -/
def FS.put (fs : FS) (p : Path) (n : Node) : FS :=
  (p, n) :: FS.drop fs p

/-- Remove a path and everything beneath it. -/
def FS.dropTree (fs : FS) (p : Path) : FS :=
  fs.filter (fun e => !(p.isPrefixOf e.1))

/-- The paths at or beneath `p` whose removal is refused, in the order of the entries. -/
def FS.stuck (denied : Path → Option GoError) (fs : FS) (p : Path) : List Path :=
  (fs.filter (fun e => p.isPrefixOf e.1 && (denied e.1).isSome)).map (fun e => e.1)

/-- Remove what may be removed at or beneath a path: an entry there stays exactly when
its own removal, or that of something beneath it, is refused. -/
def FS.dropTreeDenied (denied : Path → Option GoError) (fs : FS) (p : Path) : FS :=
  fs.filter (fun e =>
    !(p.isPrefixOf e.1) || (FS.stuck denied fs p).any (fun k => e.1.isPrefixOf k))

/-- Some entry lies strictly beneath the path. -/
def FS.hasChild (fs : FS) (p : Path) : Bool :=
  fs.any (fun e => p.isPrefixOf e.1 && decide (e.1 ≠ p))

/-- Go `os.Stat`: the node, or none for an error. -/
def os.Stat (w : World) (name : String) : Option Node :=
  FS.node w.fs (resolve w.cwd name)

/-- Go `os.WriteFile`: create or truncate the file and write `data`. -/
def os.WriteFile (env : Env) (name data : String) (w : World) : Option GoError × World :=
  let w1 := w.log (.writeFile name data)
  let p := resolve w.cwd name
  match env.writeDenied p with
  | some e => (some e, w1)
  | none =>
    match FS.node w.fs p with
    | some .dir => (some ("open " ++ name ++ ": is a directory"), w1)
    | _ =>
      if p ≠ [] ∧ FS.node w.fs p.dropLast = some .dir then
        (none, { w1 with fs := FS.put w.fs p (.file data) })
      else (some ("open " ++ name ++ ": no such file or directory"), w1)

/-- The recursion of Go `os.MkdirAll` on a path given last component first:
an existing directory is fine, an existing file is an error, otherwise the
parent is made first and then the directory itself. -/
def FS.mkdirAll (denied : Path → Option GoError) : List String → FS → Option GoError × FS
  | [], fs =>
    match FS.node fs [] with
    | some .dir => (none, fs)
    | some (.file _) => (some "mkdir: not a directory", fs)
    | none =>
      match denied [] with
      | some e => (some e, fs)
      | none => (none, FS.put fs [] .dir)
  | c :: rparent, fs =>
    match FS.node fs (c :: rparent).reverse with
    | some .dir => (none, fs)
    | some (.file _) => (some "mkdir: not a directory", fs)
    | none =>
      match FS.mkdirAll denied rparent fs with
      | (some e, fs1) => (some e, fs1)
      | (none, fs1) =>
        match denied (c :: rparent).reverse with
        | some e => (some e, fs1)
        | none => (none, FS.put fs1 (c :: rparent).reverse .dir)

/-- Go `os.MkdirAll`. -/
def os.MkdirAll (env : Env) (name : String) (w : World) : Option GoError × World :=
  let w1 := w.log (.mkdirAll name)
  let r := FS.mkdirAll env.mkdirDenied (resolve w.cwd name).reverse w.fs
  (r.1, { w1 with fs := r.2 })

/-- Go `os.Remove`: removes a file or an empty directory, unless the path is missing,
the removal is refused, or the directory is not empty. -/
def os.Remove (env : Env) (name : String) (w : World) : Option GoError × World :=
  let w1 := w.log (.remove name)
  let p := resolve w.cwd name
  match FS.node w.fs p with
  | none => (some ("remove " ++ name ++ ": no such file or directory"), w1)
  | some x =>
    match env.removeDenied p with
    | some e => (some e, w1)
    | none =>
      match x with
      | .file _ => (none, { w1 with fs := FS.drop w.fs p })
      | .dir =>
        if FS.hasChild w.fs p then (some ("remove " ++ name ++ ": directory not empty"), w1)
        else (none, { w1 with fs := FS.drop w.fs p })

/-- Go `os.RemoveAll`: removes the path and any children it is allowed to remove and
returns the first refusal it met; a missing path is no error. -/
def os.RemoveAll (env : Env) (name : String) (w : World) : Option GoError × World :=
  let w1 := w.log (.removeAll name)
  let p := resolve w.cwd name
  let err :=
    match FS.stuck env.removeDenied w.fs p with
    | [] => none
    | k :: _ => env.removeDenied k
  (err, { w1 with fs := FS.dropTreeDenied env.removeDenied w.fs p })

/-! ## The program -/

/-- Go `generateAgentID`: `rand.Intn(900000) + 100000`. -/
def generateAgentID (env : Env) (w : World) : Int × World :=
  (env.randIntn 900000 + 100000, w.log (.randIntn 900000))

/-- Go `NewNandaSDK`. -/
def NewNandaSDK (env : Env) (domain : String) (numAgents : Int) (registryURL : String)
    (agentID : Int) (w : World) : NandaSDK × World :=
  let r := if agentID = 0 then generateAgentID env w else (agentID, w)
  ({ Domain := domain, AgentID := r.1, NumAgents := numAgents, RegistryURL := registryURL }, r.2)

/-- The lookup endpoints of `getPublicIP`, in order. -/
def ipServices : List String :=
  ["https://api.ipify.org", "https://ifconfig.me/ip", "https://icanhazip.com"]

/-- The `for _, service := range ipServices` loop of `getPublicIP`. -/
def getPublicIP.loop (env : Env) : List String → World → (String × Option GoError) × World
  | [], w => (("", some "failed to detect public IP from any service"), w)
  | service :: rest, w =>
    let w1 := w.log (.httpGet service)
    match env.httpGet service with
    | .transportError _ => getPublicIP.loop env rest w1
    | .response statusCode body =>
      if statusCode = 200 then
        match body with
        | .error _ => getPublicIP.loop env rest w1
        | .ok b => ((b, none), w1)
      else getPublicIP.loop env rest w1

/-- Go `(*NandaSDK).getPublicIP`. -/
def getPublicIP (_n : NandaSDK) (env : Env) (w : World) : (String × Option GoError) × World :=
  getPublicIP.loop env ipServices w

/-- The inventory text rendered by `fmt.Sprintf` in `createAnsibleInventory`. -/
def inventoryContent (n : NandaSDK) (serverIP : String) : String :=
  "[servers]\nserver ansible_host=" ++ serverIP ++
  "\n\n[all:vars]\nansible_user=root\nansible_connection=local\ndomain_name=" ++ n.Domain ++
  "\nagent_id_prefix=" ++ toString n.AgentID ++
  "\ngithub_repo=https://github.com/aidecentralized/nanda-agent.git\nregistry_url=" ++
  n.RegistryURL ++ "\n"

/-- Go `(*NandaSDK).createAnsibleInventory`. -/
def createAnsibleInventory (n : NandaSDK) (env : Env) (w : World) :
    (String × Option GoError) × World :=
  match getPublicIP n env w with
  | ((_, some err), w1) => (("", some ("failed to get public IP: " ++ err)), w1)
  | ((serverIP, none), w1) =>
    let inventoryPath := "./ioa_inventory.ini"
    match os.WriteFile env inventoryPath (inventoryContent n serverIP) w1 with
    | (some err, w2) => (("", some ("failed to write inventory file: " ++ err)), w2)
    | (none, w2) => ((inventoryPath, none), w2)

/-- The candidate playbook locations of `findPlaybookPath`, in order. -/
def possiblePaths : List String :=
  ["ansible/playbook.yml",
   "../ansible/playbook.yml",
   "/usr/local/share/go-nanda-sdk/ansible/playbook.yml",
   "/opt/go-nanda-sdk/ansible/playbook.yml",
   "./ansible/playbook.yml"]

/-- The `for _, path := range possiblePaths` loop of `findPlaybookPath`. -/
def findPlaybookPath.loop (w : World) : List String → String
  | [] => ""
  | path :: rest =>
    if (os.Stat w path).isSome then filepath.Abs w.cwd path
    else findPlaybookPath.loop w rest

/-- Go `(*NandaSDK).findPlaybookPath`. -/
def findPlaybookPath (_n : NandaSDK) (w : World) : String :=
  findPlaybookPath.loop w possiblePaths

/-- The deferred function of `setupServer`; the errors of the removals are discarded. -/
def setupServer.cleanup (env : Env) (inventoryPath groupVarsDir : String) (w : World) : World :=
  let w1 := if inventoryPath ≠ "" then (os.Remove env inventoryPath w).2 else w
  if groupVarsDir ≠ "" then
    (os.RemoveAll env groupVarsDir
      (os.Remove env (filepath.Join [groupVarsDir, "all.yml"]) w1).2).2
  else w1

/-- The argument vector of the external command built by `setupServer`. -/
def setupServer.argv (inventoryPath playbookPath : String) (verbose : Bool) : List String :=
  ["ansible-playbook", "-i", inventoryPath, playbookPath] ++ (if verbose then ["-vvv"] else [])

/-- The group variables `setupServer` writes to `group_vars/all.yml`. -/
def setupServer.groupVars (n : NandaSDK) (anthropicAPIKey smitheryAPIKey : String) : GroupVars :=
  { AnthropicAPIKey := anthropicAPIKey
    SmitheryAPIKey := smitheryAPIKey
    DomainName := n.Domain
    AgentIDPrefix := n.AgentID
    GithubRepo := "https://github.com/aidecentralized/nanda-agent.git"
    NumAgents := n.NumAgents
    RegistryURL := n.RegistryURL }

/-- The variables the deferred function of `setupServer` reads, and the returned error,
as they stand when the body returns. -/
structure setupServer.Locals where
  inventoryPath : String
  groupVarsDir : String
  err : Option GoError
deriving DecidableEq, Repr

/-- The body of Go `(*NandaSDK).setupServer`, up to its `return`. -/
def setupServer.body (n : NandaSDK) (env : Env) (anthropicAPIKey smitheryAPIKey : String)
    (verbose : Bool) (w : World) : setupServer.Locals × World :=
  match createAnsibleInventory n env w with
  | ((inventoryPath, some err), w1) =>
    (⟨inventoryPath, "", some ("failed to create inventory: " ++ err)⟩, w1)
  | ((inventoryPath, none), w1) =>
    let groupVarsDir := "./group_vars"
    match os.MkdirAll env groupVarsDir w1 with
    | (some err, w2) =>
      (⟨inventoryPath, groupVarsDir, some ("failed to create group_vars directory: " ++ err)⟩, w2)
    | (none, w2) =>
      match env.yamlMarshal (setupServer.groupVars n anthropicAPIKey smitheryAPIKey) with
      | .error err =>
        (⟨inventoryPath, groupVarsDir, some ("failed to marshal group vars: " ++ err)⟩, w2)
      | .ok groupVarsData =>
        let groupVarsPath := filepath.Join [groupVarsDir, "all.yml"]
        match os.WriteFile env groupVarsPath groupVarsData w2 with
        | (some err, w3) =>
          (⟨inventoryPath, groupVarsDir, some ("failed to write group vars file: " ++ err)⟩, w3)
        | (none, w3) =>
          let playbookPath := findPlaybookPath n w3
          if playbookPath = "" then
            (⟨inventoryPath, groupVarsDir, some "ansible playbook not found"⟩, w3)
          else
            let argv := setupServer.argv inventoryPath playbookPath verbose
            let w4 := w3.log (.exec argv)
            let res := env.combinedOutput argv
            match res.err with
            | some err =>
              (⟨inventoryPath, groupVarsDir, some ("ansible playbook failed: " ++ err)⟩, w4)
            | none =>
              if strings.Contains res.output "failed=1" then
                (⟨inventoryPath, groupVarsDir, some "ansible playbook failed with errors"⟩, w4)
              else (⟨inventoryPath, groupVarsDir, none⟩, w4)

/-- Go `(*NandaSDK).setupServer`: the body, then the deferred cleanup with the values
`inventoryPath` and `groupVarsDir` hold when the body returns. -/
def setupServer (n : NandaSDK) (env : Env) (anthropicAPIKey smitheryAPIKey : String)
    (verbose : Bool) (w : World) : Option GoError × World :=
  let r := setupServer.body n env anthropicAPIKey smitheryAPIKey verbose w
  (r.1.err, setupServer.cleanup env r.1.inventoryPath r.1.groupVarsDir r.2)

/-- Go `(*NandaSDK).Setup`. -/
def Setup (n : NandaSDK) (env : Env) (anthropicAPIKey smitheryAPIKey : String)
    (verbose : Bool) (w : World) : Option GoError × World :=
  match setupServer n env anthropicAPIKey smitheryAPIKey verbose w with
  | (some err, w1) => (some ("setup server failed: " ++ err), w1)
  | (none, w1) => (none, w1)

/-! ## Sample surroundings -/

/-- A working directory holding a playbook under `ansible/`. -/
def sampleWorld : World :=
  { cwd := "/srv/app"
    fs := [([], .dir), (["srv"], .dir), (["srv", "app"], .dir),
           (["srv", "app", "ansible"], .dir),
           (["srv", "app", "ansible", "playbook.yml"], .file "- hosts: servers\n")]
    trace := [] }

/-- Surroundings in which the first endpoint times out, the second answers, nothing is
refused and the tool exits with the given status and output. -/
def sampleEnv (code : Nat) (output : String) : Env :=
  { randIntn := fun _ => 23456
    httpGet := fun url =>
      if url = "https://api.ipify.org" then .transportError "timeout"
      else if url = "https://ifconfig.me/ip" then .response 200 (.ok "203.0.113.5")
      else .response 503 (.ok "")
    writeDenied := fun _ => none
    mkdirDenied := fun _ => none
    removeDenied := fun _ => none
    yamlMarshal := fun g => .ok ("domain_name: " ++ g.DomainName ++ "\n")
    combinedOutput := fun _ => .exited code output }

/-- The sample working directory with a `group_vars` directory already in use. -/
def usedWorld : World :=
  { sampleWorld with
    fs := sampleWorld.fs ++
      [(["srv", "app", "group_vars"], .dir),
       (["srv", "app", "group_vars", "host.yml"], .file "region: eu\n"),
       (["srv", "app", "group_vars", "all.yml"], .file "old: true\n")] }

/-- A working directory with a playbook under `ansible/` and another one under
`../ansible/`. -/
def twoPlaybooksWorld : World :=
  { sampleWorld with
    fs := sampleWorld.fs ++
      [(["srv", "ansible"], .dir),
       (["srv", "ansible", "playbook.yml"], .file "- hosts: all\n")] }

/-- A working directory whose only playbook is the system installation. -/
def systemWorld : World :=
  { cwd := "/srv/app"
    fs := [([], .dir), (["srv"], .dir), (["srv", "app"], .dir), (["opt"], .dir),
           (["opt", "go-nanda-sdk"], .dir), (["opt", "go-nanda-sdk", "ansible"], .dir),
           (["opt", "go-nanda-sdk", "ansible", "playbook.yml"], .file "- hosts: servers\n")]
    trace := [] }

/-- A working directory without a playbook anywhere. -/
def bareWorld : World :=
  { cwd := "/srv/app"
    fs := [([], .dir), (["srv"], .dir), (["srv", "app"], .dir)]
    trace := [] }

/-- Surroundings in which every lookup endpoint is unreachable. -/
def offlineEnv : Env :=
  { sampleEnv 0 "" with httpGet := fun _ => .transportError "no route to host" }

/-- Surroundings that refuse every file write. -/
def readOnlyEnv : Env :=
  { sampleEnv 0 "" with writeDenied := fun _ => some "permission denied" }

/-- Surroundings that refuse every directory creation. -/
def noMkdirEnv : Env :=
  { sampleEnv 0 "" with mkdirDenied := fun _ => some "permission denied" }

/-- Surroundings that refuse to write any `all.yml`. -/
def noVarsEnv : Env :=
  { sampleEnv 0 "" with
    writeDenied := fun p => if p.getLast? = some "all.yml" then some "disk full" else none }

/-- The sample working directory with an inventory file left from an earlier run. -/
def staleWorld : World :=
  { sampleWorld with
    fs := sampleWorld.fs ++ [(["srv", "app", "ioa_inventory.ini"], .file "[servers]\n")] }

/-- Surroundings of a read-only working directory: existing files can be written, but
nothing can be created in it or removed from it. -/
def readOnlyDirEnv : Env :=
  { sampleEnv 0 "" with
    mkdirDenied := fun _ => some "permission denied"
    removeDenied := fun _ => some "permission denied" }

/-- Surroundings of a read-only `group_vars` directory: `all.yml` cannot be written and
nothing at or beneath `group_vars` can be removed. -/
def lockedVarsEnv : Env :=
  { sampleEnv 0 "" with
    writeDenied := fun p => if p.getLast? = some "all.yml" then some "permission denied" else none
    removeDenied := fun p =>
      if ["srv", "app", "group_vars"].isPrefixOf p then some "permission denied" else none }

/-- The external commands started so far, in order. -/
def World.execs (w : World) : List (List String) :=
  w.trace.filterMap (fun op => match op with | .exec argv => some argv | _ => none)

/-- A component that lexical cleaning keeps as it is. -/
def PlainComp (c : List Char) : Prop :=
  c ≠ [] ∧ c ≠ ['.'] ∧ c ≠ ['.', '.'] ∧ '/' ∉ c

/-- Plain components can be recognised. -/
instance PlainComp.decidable (c : List Char) : Decidable (PlainComp c) := by
  unfold PlainComp
  infer_instance

/-- A sample SDK instance. -/
def sampleSDK : NandaSDK :=
  { Domain := "a.example.com", AgentID := 123456, NumAgents := 1,
    RegistryURL := "https://chat.nanda-registry.com:6900" }

/-! ## Agent identifiers -/

/-- C7: when the random source answers `r` with `0 ≤ r < 900000`, `generateAgentID`
yields `r + 100000`, which lies in `[100000, 999999]`; hence `NewNandaSDK` called with
agent ID 0 produces a configuration whose agent ID is that six-digit number, never 0. -/
theorem generateAgentID_six_digits (env : Env) (w : World) (r : Int)
    (domain : String) (numAgents : Int) (registryURL : String)
    (hr : env.randIntn 900000 = r) (h0 : 0 ≤ r) (h1 : r < 900000) :
    (generateAgentID env w).1 = r + 100000 ∧
    100000 ≤ (generateAgentID env w).1 ∧ (generateAgentID env w).1 ≤ 999999 ∧
    (NewNandaSDK env domain numAgents registryURL 0 w).1.AgentID = r + 100000 ∧
    100000 ≤ (NewNandaSDK env domain numAgents registryURL 0 w).1.AgentID ∧
    (NewNandaSDK env domain numAgents registryURL 0 w).1.AgentID ≤ 999999 ∧
    (NewNandaSDK env domain numAgents registryURL 0 w).1.AgentID ≠ 0 := by
  simp only [generateAgentID, NewNandaSDK, hr, if_true]
  refine ⟨trivial, ?_, ?_, trivial, ?_, ?_, ?_⟩ <;> omega

/-- Witness for C7 in the sample surroundings, where the random source answers 23456. -/
theorem generateAgentID_six_digits_witness :
    (generateAgentID (sampleEnv 0 "") sampleWorld).1 = 123456 ∧
    (NewNandaSDK (sampleEnv 0 "") "a.example.com" 1 "https://r.example" 0 sampleWorld).1.AgentID
      = 123456 := by
  have h := generateAgentID_six_digits (sampleEnv 0 "") sampleWorld 23456
    "a.example.com" 1 "https://r.example" rfl (by decide) (by decide)
  exact ⟨h.1, h.2.2.2.1⟩

/-- C8: for a non-zero agent ID, `NewNandaSDK` returns the configuration made of exactly
the supplied domain, agent count, registry URL and agent ID, and leaves the world as it
was: the generator is not consulted, whatever the random source would answer. -/
theorem NewNandaSDK_explicit_id (env : Env) (w : World) (domain : String) (numAgents : Int)
    (registryURL : String) (agentID : Int) (h : agentID ≠ 0) :
    NewNandaSDK env domain numAgents registryURL agentID w =
      ({ Domain := domain, AgentID := agentID, NumAgents := numAgents,
         RegistryURL := registryURL }, w) := by
  simp [NewNandaSDK, h]

/-- Witness for C8: the values of `TestNewNandaSDK`. -/
theorem NewNandaSDK_explicit_id_witness :
    NewNandaSDK (sampleEnv 0 "") "test.example.com" 2 "https://test-registry.com:6900" 123456
        sampleWorld =
      ({ Domain := "test.example.com", AgentID := 123456, NumAgents := 2,
         RegistryURL := "https://test-registry.com:6900" }, sampleWorld) :=
  NewNandaSDK_explicit_id (sampleEnv 0 "") sampleWorld "test.example.com" 2
    "https://test-registry.com:6900" 123456 (by decide)

/-! ## Public address lookup -/

/-- When no endpoint of the list is accepted, the loop queries all of them and fails. -/
theorem getPublicIP.loop_all_fail (env : Env) (l : List String) (w : World)
    (h : ∀ s ∈ l, (env.httpGet s).accepted = none) :
    getPublicIP.loop env l w =
      (("", some "failed to detect public IP from any service"),
        { w with trace := w.trace ++ l.map Op.httpGet }) := by
  induction l generalizing w with
  | nil => simp [getPublicIP.loop]
  | cons s rest ih =>
    have hs := h s (List.mem_cons_self _ _)
    have hrest : ∀ t ∈ rest, (env.httpGet t).accepted = none :=
      fun t ht => h t (List.mem_cons_of_mem _ ht)
    rw [getPublicIP.loop]
    cases hres : env.httpGet s with
    | transportError msg => simp [ih _ hrest, World.log]
    | response code body =>
      cases body with
      | error e => by_cases hc : code = 200 <;> simp [hc, ih _ hrest, World.log]
      | ok b =>
        have hc : code ≠ 200 := by
          intro hc
          simp [hres, HttpResult.accepted, hc] at hs
        simp [hc, ih _ hrest, World.log]

/-- The loop stops at the first accepted endpoint and returns its body. -/
theorem getPublicIP.loop_first_accepted (env : Env) (pre : List String) (service : String)
    (post : List String) (body : String) (w : World)
    (hpre : ∀ s ∈ pre, (env.httpGet s).accepted = none)
    (hok : (env.httpGet service).accepted = some body) :
    getPublicIP.loop env (pre ++ service :: post) w =
      ((body, none), { w with trace := w.trace ++ (pre ++ [service]).map Op.httpGet }) := by
  induction pre generalizing w with
  | nil =>
    rw [List.nil_append, getPublicIP.loop]
    cases hres : env.httpGet service with
    | transportError msg => simp [hres, HttpResult.accepted] at hok
    | response code rd =>
      cases rd with
      | error e => simp [hres, HttpResult.accepted] at hok
      | ok b =>
        by_cases hc : code = 200
        · simp [hres, HttpResult.accepted, hc] at hok
          simp [hc, hok, World.log]
        · simp [hres, HttpResult.accepted, hc] at hok
  | cons s rest ih =>
    have hs := hpre s (List.mem_cons_self _ _)
    have hrest : ∀ t ∈ rest, (env.httpGet t).accepted = none :=
      fun t ht => hpre t (List.mem_cons_of_mem _ ht)
    rw [List.cons_append, getPublicIP.loop]
    cases hres : env.httpGet s with
    | transportError msg => simp [ih _ hrest, World.log]
    | response code rd =>
      cases rd with
      | error e => by_cases hc : code = 200 <;> simp [hc, ih _ hrest, World.log]
      | ok b =>
        have hc : code ≠ 200 := by
          intro hc
          simp [hres, HttpResult.accepted, hc] at hs
        simp [hc, ih _ hrest, World.log]

/-- C3: whatever the outcomes of the endpoints before it (transport error, status other
than 200, unreadable body), `getPublicIP` returns, without error, exactly the body of the
first endpoint in the fixed order that answers with status 200 and a readable body, and the
requests made are those to the endpoints up to and including that one: none after it. -/
theorem getPublicIP_first_success (n : NandaSDK) (env : Env) (w : World)
    (pre : List String) (service : String) (post : List String) (body : String)
    (hsplit : ipServices = pre ++ service :: post)
    (hpre : ∀ s ∈ pre, (env.httpGet s).accepted = none)
    (hok : env.httpGet service = .response 200 (.ok body)) :
    getPublicIP n env w =
      ((body, none), { w with trace := w.trace ++ (pre ++ [service]).map Op.httpGet }) := by
  rw [getPublicIP, hsplit]
  exact getPublicIP.loop_first_accepted env pre service post body w hpre
    (by simp [hok, HttpResult.accepted])

/-- Witness for C3: the first endpoint times out, the second answers "203.0.113.5". -/
theorem getPublicIP_first_success_witness :
    getPublicIP sampleSDK (sampleEnv 0 "") sampleWorld =
      (("203.0.113.5", none),
        { sampleWorld with
          trace := [.httpGet "https://api.ipify.org", .httpGet "https://ifconfig.me/ip"] }) :=
  getPublicIP_first_success sampleSDK (sampleEnv 0 "") sampleWorld
    ["https://api.ipify.org"] "https://ifconfig.me/ip" ["https://icanhazip.com"] "203.0.113.5"
    rfl (by decide) rfl

/-- C4: `getPublicIP` returns an error exactly when none of the three endpoints answers
with status 200 and a readable body; the address returned with an error is the empty
string; and if some endpoint is accepted, no error is returned. -/
theorem getPublicIP_error_iff_all_fail (n : NandaSDK) (env : Env) (w : World) :
    ((getPublicIP n env w).1.2 ≠ none ↔
      ∀ s ∈ ipServices, (env.httpGet s).accepted = none) ∧
    ((getPublicIP n env w).1.2 ≠ none → (getPublicIP n env w).1.1 = "") ∧
    ((∃ s ∈ ipServices, ∃ b, env.httpGet s = .response 200 (.ok b)) →
      (getPublicIP n env w).1.2 = none) := by
  by_cases hall : ∀ s ∈ ipServices, (env.httpGet s).accepted = none
  · have h := getPublicIP.loop_all_fail env ipServices w hall
    refine ⟨?_, ?_, ?_⟩
    · simpa [getPublicIP, h] using hall
    · simp [getPublicIP, h]
    · rintro ⟨s, hs, b, hb⟩
      have := hall s hs
      simp [hb, HttpResult.accepted] at this
  · have hex : ∃ pre service post body, ipServices = pre ++ service :: post ∧
        (∀ s ∈ pre, (env.httpGet s).accepted = none) ∧
        (env.httpGet service).accepted = some body := by
      simp only [ipServices, List.mem_cons, List.mem_singleton, forall_eq_or_imp, forall_eq,
        List.not_mem_nil, false_implies, implies_true, and_true] at hall
      by_cases h1 : (env.httpGet "https://api.ipify.org").accepted = none
      · by_cases h2 : (env.httpGet "https://ifconfig.me/ip").accepted = none
        · have h3 : (env.httpGet "https://icanhazip.com").accepted ≠ none :=
            fun h3 => hall ⟨h1, h2, h3⟩
          obtain ⟨b, hb⟩ := Option.ne_none_iff_exists.mp h3
          exact ⟨["https://api.ipify.org", "https://ifconfig.me/ip"], _, [], b, rfl,
            by simp [h1, h2], hb.symm⟩
        · obtain ⟨b, hb⟩ := Option.ne_none_iff_exists.mp h2
          exact ⟨["https://api.ipify.org"], _, ["https://icanhazip.com"], b, rfl,
            by simp [h1], hb.symm⟩
      · obtain ⟨b, hb⟩ := Option.ne_none_iff_exists.mp h1
        exact ⟨[], _, ["https://ifconfig.me/ip", "https://icanhazip.com"], b, rfl,
          by simp, hb.symm⟩
    obtain ⟨pre, service, post, body, hsplit, hpre, hok⟩ := hex
    have h := getPublicIP.loop_first_accepted env pre service post body w hpre hok
    rw [← hsplit] at h
    refine ⟨?_, ?_, ?_⟩
    · simp [getPublicIP, h, hall]
    · simp [getPublicIP, h]
    · intro _
      simp [getPublicIP, h]



/-! ## Path lemmas -/

theorem splitSlash_ne_nil (l : List Char) : splitSlash l ≠ [] := by
  induction l with
  | nil => simp [splitSlash]
  | cons c cs ih =>
    rw [splitSlash]
    split
    · simp
    · split <;> simp

theorem splitSlash_append_slash (a b : List Char) :
    splitSlash (a ++ '/' :: b) = splitSlash a ++ splitSlash b := by
  induction a with
  | nil => simp [splitSlash]
  | cons c cs ih =>
    rw [List.cons_append, splitSlash, splitSlash, ih]
    by_cases hc : c = '/'
    · simp [hc]
    · simp only [hc, if_false]
      cases hs : splitSlash cs with
      | nil => exact absurd hs (splitSlash_ne_nil cs)
      | cons h t => simp

theorem splitSlash_no_slash (l : List Char) : ∀ c ∈ splitSlash l, '/' ∉ c := by
  induction l with
  | nil => simp [splitSlash]
  | cons a cs ih =>
    rw [splitSlash]
    by_cases ha : a = '/'
    · simp only [ha, if_true, List.mem_cons]
      rintro c (rfl | hc)
      · simp
      · exact ih c hc
    · simp only [ha, if_false]
      cases hs : splitSlash cs with
      | nil => exact absurd hs (splitSlash_ne_nil cs)
      | cons h t =>
        rw [hs] at ih
        simp only [List.mem_cons]
        rintro c (rfl | hc)
        · have := ih h (List.mem_cons_self _ _)
          simp only [List.mem_cons, not_or]
          exact ⟨fun e => ha e.symm, this⟩
        · exact ih c (List.mem_cons_of_mem _ hc)

theorem splitSlash_of_no_slash (c : List Char) (h : '/' ∉ c) : splitSlash c = [c] := by
  induction c with
  | nil => rfl
  | cons a cs ih =>
    simp only [List.mem_cons, not_or] at h
    have ha : a ≠ '/' := fun e => h.1 e.symm
    rw [splitSlash, ih h.2]
    simp [ha]

theorem splitSlash_joinSlash (cs : List (List Char)) (hne : cs ≠ [])
    (h : ∀ c ∈ cs, '/' ∉ c) : splitSlash (joinSlash cs) = cs := by
  induction cs with
  | nil => exact absurd rfl hne
  | cons c rest ih =>
    cases rest with
    | nil => simpa [joinSlash] using splitSlash_of_no_slash c (h c (List.mem_cons_self _ _))
    | cons d ds =>
      have hj : joinSlash (c :: d :: ds) = c ++ '/' :: joinSlash (d :: ds) := rfl
      rw [hj, splitSlash_append_slash,
        splitSlash_of_no_slash c (h c (List.mem_cons_self _ _)),
        ih (by simp) (fun x hx => h x (List.mem_cons_of_mem _ hx))]
      rfl

theorem cleanStep_plain (acc : List (List Char)) (c : List Char) (h : PlainComp c) :
    cleanStep true acc c = c :: acc := by
  simp [cleanStep, h.1, h.2.1, h.2.2.1]

theorem foldl_cleanStep_plain (cs acc : List (List Char)) (h : ∀ c ∈ cs, PlainComp c) :
    cs.foldl (cleanStep true) acc = cs.reverse ++ acc := by
  induction cs generalizing acc with
  | nil => rfl
  | cons c rest ih =>
    rw [List.foldl_cons, cleanStep_plain acc c (h c (List.mem_cons_self _ _)),
      ih _ (fun x hx => h x (List.mem_cons_of_mem _ hx))]
    simp

theorem cleanStep_keeps_plain (acc : List (List Char)) (c : List Char)
    (hacc : ∀ x ∈ acc, PlainComp x) (hc : '/' ∉ c) :
    ∀ x ∈ cleanStep true acc c, PlainComp x := by
  unfold cleanStep
  by_cases h1 : c = [] ∨ c = ['.']
  · simpa [h1] using hacc
  · by_cases h2 : c = ['.', '.']
    · rw [if_neg h1, if_pos h2]
      cases acc with
      | nil => simp
      | cons top rest =>
        have htop := hacc top (List.mem_cons_self _ _)
        simp only [htop.2.2.1, if_false]
        exact fun x hx => hacc x (List.mem_cons_of_mem _ hx)
    · rw [if_neg h1, if_neg h2]
      simp only [not_or] at h1
      intro x hx
      rcases List.mem_cons.mp hx with rfl | hx
      · exact ⟨h1.1, h1.2, h2, hc⟩
      · exact hacc x hx

theorem foldl_cleanStep_keeps_plain (cs acc : List (List Char))
    (hacc : ∀ x ∈ acc, PlainComp x) (hcs : ∀ c ∈ cs, '/' ∉ c) :
    ∀ x ∈ cs.foldl (cleanStep true) acc, PlainComp x := by
  induction cs generalizing acc with
  | nil => simpa using hacc
  | cons c rest ih =>
    rw [List.foldl_cons]
    exact ih _ (cleanStep_keeps_plain acc c hacc (hcs c (List.mem_cons_self _ _)))
      (fun x hx => hcs x (List.mem_cons_of_mem _ hx))

theorem cleanComps_plain (l : List Char) : ∀ x ∈ cleanComps true (splitSlash l), PlainComp x := by
  intro x hx
  rw [cleanComps, List.mem_reverse] at hx
  exact foldl_cleanStep_keeps_plain _ [] (by simp) (splitSlash_no_slash l) x hx

/-- Cleaning the rendering of a cleaned rooted path gives the same components back. -/
theorem cleanComps_render (cs : List (List Char)) (h : ∀ c ∈ cs, PlainComp c) :
    cleanComps true (splitSlash ('/' :: joinSlash cs)) = cs := by
  cases cs with
  | nil => simp [joinSlash, splitSlash, cleanComps, cleanStep]
  | cons c rest =>
    rw [splitSlash, if_pos rfl, splitSlash_joinSlash _ (by simp) (fun x hx => (h x hx).2.2.2),
      cleanComps, List.foldl_cons]
    have h0 : cleanStep true [] [] = [] := by simp [cleanStep]
    rw [h0, foldl_cleanStep_plain _ _ h]
    simp

theorem filepath.Clean_ne_empty (path : String) : filepath.Clean path ≠ "" := by
  unfold filepath.Clean
  by_cases h : filepath.IsAbs path = true
  · simp only [h, if_true]
    intro e
    have := congrArg String.data e
    simp at this
  · simp only [h]
    by_cases hb : joinSlash (cleanComps false (splitSlash path.data)) = []
    · simp [hb]
    · simp only [hb]
      intro e
      have := congrArg String.data e
      exact hb (by simpa using this)

theorem filepath.Abs_ne_empty (cwd path : String) (hp : path ≠ "") : filepath.Abs cwd path ≠ "" := by
  unfold filepath.Abs
  split
  · exact filepath.Clean_ne_empty path
  · unfold filepath.Join
    by_cases hc : cwd = ""
    · simp [hc, hp, filepath.Clean_ne_empty]
    · simp [hc, filepath.Clean_ne_empty]

theorem resolve_Abs (cwd path : String) (habs : filepath.IsAbs cwd = true) :
    resolve cwd (filepath.Abs cwd path) = resolve cwd path := by
  by_cases hp : filepath.IsAbs path = true
  · have h1 : filepath.Abs cwd path =
        ⟨'/' :: joinSlash (cleanComps true (splitSlash path.data))⟩ := by
      simp [filepath.Abs, filepath.Clean, hp]
    have h2 : filepath.IsAbs (filepath.Abs cwd path) = true := by
      rw [h1]; simp [filepath.IsAbs]
    simp only [resolve, h2, hp, if_true]
    rw [h1]
    simp only [cleanComps_render _ (cleanComps_plain path.data)]
  · obtain ⟨rest, hcwd⟩ : ∃ rest, cwd.data = '/' :: rest := by
      unfold filepath.IsAbs at habs
      cases hd : cwd.data with
      | nil => simp [hd] at habs
      | cons a rest =>
        simp [hd] at habs
        exact ⟨rest, by rw [habs]⟩
    have hne : cwd ≠ "" := by
      intro e
      rw [e] at hcwd
      simp at hcwd
    have hj : filepath.IsAbs ⟨cwd.data ++ '/' :: path.data⟩ = true := by
      simp [filepath.IsAbs, hcwd]
    have h1 : filepath.Abs cwd path =
        ⟨'/' :: joinSlash (cleanComps true (splitSlash (cwd.data ++ '/' :: path.data)))⟩ := by
      simp only [filepath.Abs, hp, filepath.Join, List.dropWhile, hne, decide_False,
        List.map, joinSlash, filepath.Clean, hj, if_true]
      rfl
    have h2 : filepath.IsAbs (filepath.Abs cwd path) = true := by
      rw [h1]; simp [filepath.IsAbs]
    simp only [resolve, h2, hp, if_true]
    rw [h1]
    simp only [cleanComps_render _ (cleanComps_plain _)]
    rfl

/-- The working directory as a path. -/
theorem resolve_relative (cwd name : String) (h : filepath.IsAbs name = false) :
    resolve cwd name =
      (((splitSlash name.data).foldl (cleanStep true)
        ((splitSlash cwd.data).foldl (cleanStep true) [])).reverse).map String.mk := by
  simp [resolve, h, splitSlash_append_slash, cleanComps, List.foldl_append]

theorem resolve_inventory (cwd : String) :
    resolve cwd "./ioa_inventory.ini" = resolve cwd "." ++ ["ioa_inventory.ini"] := by
  rw [resolve_relative _ _ (by decide), resolve_relative _ _ (by decide)]
  have h1 : splitSlash "./ioa_inventory.ini".data = [['.'], "ioa_inventory.ini".data] := by decide
  have h2 : splitSlash ".".data = [['.']] := by decide
  rw [h1, h2]
  have h3 : ∀ acc, cleanStep true acc "ioa_inventory.ini".data = "ioa_inventory.ini".data :: acc :=
    fun acc => cleanStep_plain acc _ (by decide)
  have h4 : ∀ acc, cleanStep true acc ['.'] = acc := fun acc => by simp [cleanStep]
  simp only [List.foldl_cons, List.foldl_nil, h3, h4, List.reverse_cons, List.map_append,
    List.map_cons, List.map_nil]

theorem resolve_groupVarsDir (cwd : String) :
    resolve cwd "./group_vars" = resolve cwd "." ++ ["group_vars"] := by
  rw [resolve_relative _ _ (by decide), resolve_relative _ _ (by decide)]
  have h1 : splitSlash "./group_vars".data = [['.'], "group_vars".data] := by decide
  have h2 : splitSlash ".".data = [['.']] := by decide
  rw [h1, h2]
  have h3 : ∀ acc, cleanStep true acc "group_vars".data = "group_vars".data :: acc :=
    fun acc => cleanStep_plain acc _ (by decide)
  have h4 : ∀ acc, cleanStep true acc ['.'] = acc := fun acc => by simp [cleanStep]
  simp only [List.foldl_cons, List.foldl_nil, h3, h4, List.reverse_cons, List.map_append,
    List.map_cons, List.map_nil]

theorem filepath.Join_groupVars_all :
    filepath.Join ["./group_vars", "all.yml"] = "group_vars/all.yml" := by decide

theorem resolve_groupVarsPath (cwd : String) :
    resolve cwd "group_vars/all.yml" = resolve cwd "." ++ ["group_vars", "all.yml"] := by
  rw [resolve_relative _ _ (by decide), resolve_relative _ _ (by decide)]
  have h1 : splitSlash "group_vars/all.yml".data = ["group_vars".data, "all.yml".data] := by
    decide
  have h2 : splitSlash ".".data = [['.']] := by decide
  rw [h1, h2]
  have h3 : ∀ acc, cleanStep true acc "group_vars".data = "group_vars".data :: acc :=
    fun acc => cleanStep_plain acc _ (by decide)
  have h5 : ∀ acc, cleanStep true acc "all.yml".data = "all.yml".data :: acc :=
    fun acc => cleanStep_plain acc _ (by decide)
  have h4 : ∀ acc, cleanStep true acc ['.'] = acc := fun acc => by simp [cleanStep]
  simp only [List.foldl_cons, List.foldl_nil, h3, h4, h5, List.reverse_cons, List.map_append,
    List.map_cons, List.map_nil, List.append_assoc, List.singleton_append]

/-! ## Filesystem lemmas -/

theorem FS.node_filter (fs : FS) (f : Path → Bool) (q : Path) :
    FS.node (fs.filter (fun e => f e.1)) q = if f q then FS.node fs q else none := by
  induction fs with
  | nil => simp [FS.node]
  | cons e rest ih =>
    obtain ⟨k, x⟩ := e
    by_cases hk : f k = true
    · rw [List.filter_cons_of_pos (by simpa using hk)]
      by_cases hq : k = q
      · subst hq
        simp [FS.node, hk]
      · simp only [FS.node, hq, if_false, ih]
    · rw [List.filter_cons_of_neg (by simpa using hk)]
      by_cases hq : k = q
      · subst hq
        simp [FS.node, hk, ih]
      · simp only [FS.node, hq, if_false, ih]

theorem FS.node_drop (fs : FS) (p q : Path) :
    FS.node (FS.drop fs p) q = if q = p then none else FS.node fs q := by
  have h := FS.node_filter fs (fun k => decide (k ≠ p)) q
  simp only [FS.drop]
  rw [h]
  by_cases hq : q = p <;> simp [hq]

theorem FS.node_put (fs : FS) (p q : Path) (x : Node) :
    FS.node (FS.put fs p x) q = if p = q then some x else FS.node fs q := by
  by_cases hq : p = q
  · simp [FS.put, FS.node, hq]
  · have hq2 : ¬ q = p := fun e => hq e.symm
    simp [FS.put, FS.node, hq, FS.node_drop, hq2]

theorem FS.node_dropTree (fs : FS) (p q : Path) :
    FS.node (FS.dropTree fs p) q = if p.isPrefixOf q then none else FS.node fs q := by
  have h := FS.node_filter fs (fun k => !(p.isPrefixOf k)) q
  simp only [FS.dropTree]
  rw [h]
  by_cases hq : p.isPrefixOf q = true <;> simp [hq]

theorem FS.mkdirAll_keeps (denied : Path → Option GoError) (rp : List String) (fs : FS)
    (q : Path) (x : Node) (h : FS.node fs q = some x) :
    FS.node (FS.mkdirAll denied rp fs).2 q = some x := by
  induction rp generalizing fs with
  | nil =>
    unfold FS.mkdirAll
    split
    · exact h
    · exact h
    · rename_i hn
      split
      · exact h
      · rw [FS.node_put]
        by_cases hq : [] = q
        · subst hq; rw [hn] at h; cases h
        · simp [hq, h]
  | cons c rparent ih =>
    unfold FS.mkdirAll
    split
    · exact h
    · exact h
    · rename_i hn
      have ih1 := ih fs h
      split
      · rename_i e fs1 he
        rw [he] at ih1
        exact ih1
      · rename_i fs1 he
        rw [he] at ih1
        split
        · exact ih1
        · rw [FS.node_put]
          by_cases hq : (c :: rparent).reverse = q
          · subst hq; rw [hn] at h; cases h
          · rw [if_neg hq]; exact ih1

/-! ## Effects of the operations on the world -/

theorem getPublicIP.loop_frame (env : Env) (l : List String) (w : World) :
    (getPublicIP.loop env l w).2.cwd = w.cwd ∧ (getPublicIP.loop env l w).2.fs = w.fs := by
  induction l generalizing w with
  | nil => simp [getPublicIP.loop]
  | cons s rest ih =>
    have h := ih (w.log (.httpGet s))
    unfold getPublicIP.loop
    simp only
    split
    · exact h
    · split
      · split
        · exact h
        · exact ⟨rfl, rfl⟩
      · exact h

theorem os.WriteFile_spec (env : Env) (name data : String) (w : World) :
    (os.WriteFile env name data w).2.cwd = w.cwd ∧
    (os.WriteFile env name data w).2.trace = w.trace ++ [.writeFile name data] ∧
    (((os.WriteFile env name data w).1 = none ∧
        (os.WriteFile env name data w).2.fs = FS.put w.fs (resolve w.cwd name) (.file data)) ∨
      ((os.WriteFile env name data w).1 ≠ none ∧ (os.WriteFile env name data w).2.fs = w.fs)) := by
  unfold os.WriteFile
  simp only
  split
  · exact ⟨rfl, rfl, Or.inr ⟨by simp, rfl⟩⟩
  · split
    · exact ⟨rfl, rfl, Or.inr ⟨by simp, rfl⟩⟩
    · split
      · exact ⟨rfl, rfl, Or.inl ⟨rfl, rfl⟩⟩
      · exact ⟨rfl, rfl, Or.inr ⟨by simp, rfl⟩⟩

theorem os.WriteFile_keeps_file (env : Env) (name data : String) (w : World) (q : Path)
    (d : String) (h : FS.node w.fs q = some (.file d)) :
    ∃ d1, FS.node (os.WriteFile env name data w).2.fs q = some (.file d1) := by
  rcases (os.WriteFile_spec env name data w).2.2 with ⟨_, hfs⟩ | ⟨_, hfs⟩
  · rw [hfs, FS.node_put]
    by_cases hq : resolve w.cwd name = q
    · exact ⟨data, by simp [hq]⟩
    · exact ⟨d, by simp [hq, h]⟩
  · exact ⟨d, by rw [hfs]; exact h⟩

theorem os.MkdirAll_spec (env : Env) (name : String) (w : World) :
    (os.MkdirAll env name w).2.cwd = w.cwd ∧
    (os.MkdirAll env name w).2.trace = w.trace ++ [.mkdirAll name] ∧
    ∀ q x, FS.node w.fs q = some x → FS.node (os.MkdirAll env name w).2.fs q = some x :=
  ⟨rfl, rfl, fun q x h => FS.mkdirAll_keeps _ _ _ q x h⟩

theorem os.Remove_spec (env : Env) (name : String) (w : World) :
    (os.Remove env name w).2.cwd = w.cwd ∧
    (os.Remove env name w).2.trace = w.trace ++ [.remove name] ∧
    ((os.Remove env name w).2.fs = w.fs ∨
      (os.Remove env name w).2.fs = FS.drop w.fs (resolve w.cwd name)) := by
  unfold os.Remove
  simp only
  split
  · exact ⟨rfl, rfl, Or.inl rfl⟩
  · split
    · exact ⟨rfl, rfl, Or.inl rfl⟩
    · split
      · exact ⟨rfl, rfl, Or.inr rfl⟩
      · split
        · exact ⟨rfl, rfl, Or.inl rfl⟩
        · exact ⟨rfl, rfl, Or.inr rfl⟩

theorem os.Remove_file (env : Env) (name : String) (w : World) (d : String)
    (h : FS.node w.fs (resolve w.cwd name) = some (.file d))
    (hallowed : env.removeDenied (resolve w.cwd name) = none) :
    (os.Remove env name w).2.fs = FS.drop w.fs (resolve w.cwd name) := by
  simp [os.Remove, h, hallowed]

theorem FS.stuck_eq_nil (denied : Path → Option GoError) (fs : FS) (p : Path)
    (hallowed : ∀ q, p <+: q → denied q = none) : FS.stuck denied fs p = [] := by
  unfold FS.stuck
  rw [List.map_eq_nil_iff, List.filter_eq_nil_iff]
  intro e _
  by_cases hp : p.isPrefixOf e.1 = true
  · have := hallowed e.1 (List.isPrefixOf_iff_prefix.mp hp)
    simp [this]
  · simp [hp]

theorem FS.dropTreeDenied_allowed (denied : Path → Option GoError) (fs : FS) (p : Path)
    (hallowed : ∀ q, p <+: q → denied q = none) :
    FS.dropTreeDenied denied fs p = FS.dropTree fs p := by
  simp [FS.dropTreeDenied, FS.dropTree, FS.stuck_eq_nil denied fs p hallowed]

theorem os.Remove_keeps_none (env : Env) (name : String) (w : World) (q : Path)
    (h : FS.node w.fs q = none) : FS.node (os.Remove env name w).2.fs q = none := by
  rcases (os.Remove_spec env name w).2.2 with hfs | hfs
  · rw [hfs]; exact h
  · rw [hfs, FS.node_drop]; simp [h]

theorem createAnsibleInventory_ok (n : NandaSDK) (env : Env) (w : World)
    (h : (createAnsibleInventory n env w).1.2 = none) :
    (createAnsibleInventory n env w).1.1 = "./ioa_inventory.ini" ∧
    (createAnsibleInventory n env w).2.cwd = w.cwd ∧
    ∃ d, FS.node (createAnsibleInventory n env w).2.fs (resolve w.cwd "./ioa_inventory.ini")
      = some (.file d) := by
  unfold createAnsibleInventory at h ⊢
  have hf := getPublicIP.loop_frame env ipServices w
  rw [← getPublicIP] at hf
  rcases hg : getPublicIP n env w with ⟨⟨ip, e⟩, w1⟩
  rw [hg] at hf h
  simp only at hf
  cases e with
  | some err => simp at h
  | none =>
    simp only at h ⊢
    have hw := os.WriteFile_spec env "./ioa_inventory.ini" (inventoryContent n ip) w1
    rcases hr : os.WriteFile env "./ioa_inventory.ini" (inventoryContent n ip) w1 with ⟨e2, w2⟩
    rw [hr] at hw h
    simp only at hw
    cases e2 with
    | some err => simp at h
    | none =>
      refine ⟨rfl, ?_, ?_⟩
      · simp only [hw.1, hf.1]
      · rcases hw.2.2 with ⟨_, hfs⟩ | ⟨hne, _⟩
        · refine ⟨inventoryContent n ip, ?_⟩
          simp only
          rw [hfs, FS.node_put, hf.1]
          simp
        · exact absurd rfl hne

theorem setupServer.cleanup_spec (env : Env) (w : World) (d : String)
    (h : FS.node w.fs (resolve w.cwd "./ioa_inventory.ini") = some (.file d))
    (hinv : env.removeDenied (resolve w.cwd "./ioa_inventory.ini") = none)
    (hgv : ∀ q, resolve w.cwd "./group_vars" <+: q → env.removeDenied q = none) :
    (setupServer.cleanup env "./ioa_inventory.ini" "./group_vars" w).cwd = w.cwd ∧
    FS.node (setupServer.cleanup env "./ioa_inventory.ini" "./group_vars" w).fs
      (resolve w.cwd "./ioa_inventory.ini") = none ∧
    ∀ q, resolve w.cwd "./group_vars" <+: q →
      FS.node (setupServer.cleanup env "./ioa_inventory.ini" "./group_vars" w).fs q = none := by
  have hi : ("./ioa_inventory.ini" : String) ≠ "" := by decide
  have hg : ("./group_vars" : String) ≠ "" := by decide
  simp only [setupServer.cleanup, hi, hg, ne_eq, not_false_eq_true, if_true,
    filepath.Join_groupVars_all]
  have h1 := os.Remove_spec env "./ioa_inventory.ini" w
  have h1f := os.Remove_file env "./ioa_inventory.ini" w d h hinv
  have h2 := os.Remove_spec env "group_vars/all.yml" (os.Remove env "./ioa_inventory.ini" w).2
  have hnone : FS.node (os.Remove env "./ioa_inventory.ini" w).2.fs
      (resolve w.cwd "./ioa_inventory.ini") = none := by
    rw [h1f, FS.node_drop]; simp
  have hnone2 := os.Remove_keeps_none env "group_vars/all.yml" _ _ hnone
  have hcwd : (os.Remove env "group_vars/all.yml"
      (os.Remove env "./ioa_inventory.ini" w).2).2.cwd = w.cwd := h2.1.trans h1.1
  have hfs : (os.RemoveAll env "./group_vars" (os.Remove env "group_vars/all.yml"
      (os.Remove env "./ioa_inventory.ini" w).2).2).2.fs =
      FS.dropTree (os.Remove env "group_vars/all.yml"
        (os.Remove env "./ioa_inventory.ini" w).2).2.fs (resolve w.cwd "./group_vars") := by
    simp only [os.RemoveAll, World.log, hcwd]
    exact FS.dropTreeDenied_allowed _ _ _ hgv
  refine ⟨?_, ?_, ?_⟩
  · simp only [os.RemoveAll, World.log, hcwd]
  · rw [hfs, FS.node_dropTree, hnone2, ite_self]
  · intro q hq
    rw [hfs, FS.node_dropTree]
    have : (resolve w.cwd "./group_vars").isPrefixOf q = true := by
      simpa [List.isPrefixOf_iff_prefix] using hq
    simp [this]

/-! ## The body of `setupServer`, return by return -/

theorem setupServer.body_inventory_error (n : NandaSDK) (env : Env) (a s : String) (v : Bool)
    (w : World) (p : String) (e : GoError) (w1 : World)
    (h1 : createAnsibleInventory n env w = ((p, some e), w1)) :
    setupServer.body n env a s v w =
      (⟨p, "", some ("failed to create inventory: " ++ e)⟩, w1) := by
  simp [setupServer.body, h1]

theorem setupServer.body_mkdir_error (n : NandaSDK) (env : Env) (a s : String) (v : Bool)
    (w : World) (p : String) (w1 : World) (e : GoError) (w2 : World)
    (h1 : createAnsibleInventory n env w = ((p, none), w1))
    (h2 : os.MkdirAll env "./group_vars" w1 = (some e, w2)) :
    setupServer.body n env a s v w =
      (⟨p, "./group_vars", some ("failed to create group_vars directory: " ++ e)⟩, w2) := by
  simp [setupServer.body, h1, h2]

theorem setupServer.body_marshal_error (n : NandaSDK) (env : Env) (a s : String) (v : Bool)
    (w : World) (p : String) (w1 w2 : World) (e : GoError)
    (h1 : createAnsibleInventory n env w = ((p, none), w1))
    (h2 : os.MkdirAll env "./group_vars" w1 = (none, w2))
    (h3 : env.yamlMarshal (setupServer.groupVars n a s) = .error e) :
    setupServer.body n env a s v w =
      (⟨p, "./group_vars", some ("failed to marshal group vars: " ++ e)⟩, w2) := by
  simp [setupServer.body, h1, h2, h3]

theorem setupServer.body_write_error (n : NandaSDK) (env : Env) (a s : String) (v : Bool)
    (w : World) (p : String) (w1 w2 : World) (data : String) (e : GoError) (w3 : World)
    (h1 : createAnsibleInventory n env w = ((p, none), w1))
    (h2 : os.MkdirAll env "./group_vars" w1 = (none, w2))
    (h3 : env.yamlMarshal (setupServer.groupVars n a s) = .ok data)
    (h4 : os.WriteFile env (filepath.Join ["./group_vars", "all.yml"]) data w2 = (some e, w3)) :
    setupServer.body n env a s v w =
      (⟨p, "./group_vars", some ("failed to write group vars file: " ++ e)⟩, w3) := by
  simp [setupServer.body, h1, h2, h3, h4]

theorem setupServer.body_no_playbook (n : NandaSDK) (env : Env) (a s : String) (v : Bool)
    (w : World) (p : String) (w1 w2 : World) (data : String) (w3 : World)
    (h1 : createAnsibleInventory n env w = ((p, none), w1))
    (h2 : os.MkdirAll env "./group_vars" w1 = (none, w2))
    (h3 : env.yamlMarshal (setupServer.groupVars n a s) = .ok data)
    (h4 : os.WriteFile env (filepath.Join ["./group_vars", "all.yml"]) data w2 = (none, w3))
    (h5 : findPlaybookPath n w3 = "") :
    setupServer.body n env a s v w =
      (⟨p, "./group_vars", some "ansible playbook not found"⟩, w3) := by
  simp [setupServer.body, h1, h2, h3, h4, h5]

theorem setupServer.body_run (n : NandaSDK) (env : Env) (a s : String) (v : Bool)
    (w : World) (p : String) (w1 w2 : World) (data : String) (w3 : World)
    (h1 : createAnsibleInventory n env w = ((p, none), w1))
    (h2 : os.MkdirAll env "./group_vars" w1 = (none, w2))
    (h3 : env.yamlMarshal (setupServer.groupVars n a s) = .ok data)
    (h4 : os.WriteFile env (filepath.Join ["./group_vars", "all.yml"]) data w2 = (none, w3))
    (h5 : findPlaybookPath n w3 ≠ "") :
    setupServer.body n env a s v w =
      (⟨p, "./group_vars",
        match (env.combinedOutput (setupServer.argv p (findPlaybookPath n w3) v)).err with
        | some err => some ("ansible playbook failed: " ++ err)
        | none =>
          if strings.Contains
              (env.combinedOutput (setupServer.argv p (findPlaybookPath n w3) v)).output
              "failed=1" then
            some "ansible playbook failed with errors"
          else none⟩,
       w3.log (.exec (setupServer.argv p (findPlaybookPath n w3) v))) := by
  simp only [setupServer.body, h1, h2, h3, h4, h5, if_false]
  split
  · rfl
  · split <;> rfl

/-- Once the inventory has been written, the body returns with both cleanup variables
set and with the inventory still a regular file. -/
theorem setupServer.body_after_inventory (n : NandaSDK) (env : Env) (a s : String) (v : Bool)
    (w : World) (h : (createAnsibleInventory n env w).1.2 = none) :
    (setupServer.body n env a s v w).1.inventoryPath = "./ioa_inventory.ini" ∧
    (setupServer.body n env a s v w).1.groupVarsDir = "./group_vars" ∧
    (setupServer.body n env a s v w).2.cwd = w.cwd ∧
    ∃ d, FS.node (setupServer.body n env a s v w).2.fs (resolve w.cwd "./ioa_inventory.ini")
      = some (.file d) := by
  obtain ⟨hp, hcwd, d, hd⟩ := createAnsibleInventory_ok n env w h
  rcases h1 : createAnsibleInventory n env w with ⟨⟨p, e⟩, w1⟩
  rw [h1] at h hp hcwd hd
  simp only at h hp hcwd hd
  subst h hp
  have hm := os.MkdirAll_spec env "./group_vars" w1
  rcases h2 : os.MkdirAll env "./group_vars" w1 with ⟨e2, w2⟩
  rw [h2] at hm
  simp only at hm
  have hd2 := hm.2.2 _ _ hd
  have hcwd2 : w2.cwd = w.cwd := hm.1.trans hcwd
  cases e2 with
  | some err =>
    rw [setupServer.body_mkdir_error n env a s v w _ w1 err w2 h1 h2]
    exact ⟨rfl, rfl, hcwd2, _, hd2⟩
  | none =>
    cases h3 : env.yamlMarshal (setupServer.groupVars n a s) with
    | error err =>
      rw [setupServer.body_marshal_error n env a s v w _ w1 w2 err h1 h2 h3]
      exact ⟨rfl, rfl, hcwd2, _, hd2⟩
    | ok data =>
      have hw := os.WriteFile_spec env (filepath.Join ["./group_vars", "all.yml"]) data w2
      obtain ⟨d3, hd3⟩ := os.WriteFile_keeps_file env
        (filepath.Join ["./group_vars", "all.yml"]) data w2 _ _ hd2
      rcases h4 : os.WriteFile env (filepath.Join ["./group_vars", "all.yml"]) data w2
        with ⟨e4, w3⟩
      rw [h4] at hw hd3
      simp only at hw hd3
      have hcwd3 : w3.cwd = w.cwd := hw.1.trans hcwd2
      cases e4 with
      | some err =>
        rw [setupServer.body_write_error n env a s v w _ w1 w2 data err w3 h1 h2 h3 h4]
        exact ⟨rfl, rfl, hcwd3, _, hd3⟩
      | none =>
        by_cases h5 : findPlaybookPath n w3 = ""
        · rw [setupServer.body_no_playbook n env a s v w _ w1 w2 data w3 h1 h2 h3 h4 h5]
          exact ⟨rfl, rfl, hcwd3, _, hd3⟩
        · rw [setupServer.body_run n env a s v w _ w1 w2 data w3 h1 h2 h3 h4 h5]
          exact ⟨rfl, rfl, hcwd3, _, hd3⟩

/-! ## Cleanup -/

/-- C1 (as amended): once `createAnsibleInventory` has succeeded inside `setupServer`,
then whatever the configuration, the filesystem before the run and the outcome of the
later steps, provided the removal of `./ioa_inventory.ini` and the removals at and
beneath `./group_vars` are not refused, the world `setupServer` returns has no
`./ioa_inventory.ini`, no `./group_vars`, no `group_vars/all.yml`, and nothing at any
path beneath `./group_vars`. -/
theorem setupServer_removes_artifacts_when_allowed (n : NandaSDK) (env : Env) (a s : String)
    (v : Bool) (w : World) (h : (createAnsibleInventory n env w).1.2 = none)
    (hinv : env.removeDenied (resolve w.cwd "./ioa_inventory.ini") = none)
    (hgv : ∀ q, resolve w.cwd "./group_vars" <+: q → env.removeDenied q = none) :
    os.Stat (setupServer n env a s v w).2 "./ioa_inventory.ini" = none ∧
    os.Stat (setupServer n env a s v w).2 "./group_vars" = none ∧
    os.Stat (setupServer n env a s v w).2 (filepath.Join ["./group_vars", "all.yml"]) = none ∧
    ∀ q, resolve w.cwd "./group_vars" <+: q →
      FS.node (setupServer n env a s v w).2.fs q = none := by
  obtain ⟨hp, hg, hcwd, d, hd⟩ := setupServer.body_after_inventory n env a s v w h
  rw [← hcwd] at hd hinv hgv
  obtain ⟨c1, c2, c3⟩ :=
    setupServer.cleanup_spec env (setupServer.body n env a s v w).2 d hd hinv hgv
  have hfin : (setupServer n env a s v w).2 =
      setupServer.cleanup env "./ioa_inventory.ini" "./group_vars"
        (setupServer.body n env a s v w).2 := by
    simp only [setupServer, hp, hg]
  rw [hcwd] at c1 c2 c3
  refine ⟨?_, ?_, ?_, ?_⟩
  · rw [os.Stat, hfin, c1]; exact c2
  · rw [os.Stat, hfin, c1]; exact c3 _ (List.prefix_refl _)
  · rw [os.Stat, hfin, c1, filepath.Join_groupVars_all]
    refine c3 _ ?_
    rw [resolve_groupVarsPath, resolve_groupVarsDir]
    exact ⟨["all.yml"], by simp⟩
  · intro q hq
    rw [hfin]
    exact c3 q hq

/-- Witness for C1 as amended: the tool exits with status 1 in a directory whose
`group_vars` was already in use and no removal is refused; the inventory and everything
under `group_vars` are gone afterwards. -/
theorem setupServer_removes_artifacts_when_allowed_witness :
    os.Stat (setupServer sampleSDK (sampleEnv 1 "fatal") "k" "s" false usedWorld).2
      "./ioa_inventory.ini" = none ∧
    os.Stat (setupServer sampleSDK (sampleEnv 1 "fatal") "k" "s" false usedWorld).2
      "./group_vars" = none ∧
    FS.node (setupServer sampleSDK (sampleEnv 1 "fatal") "k" "s" false usedWorld).2.fs
      ["srv", "app", "group_vars", "host.yml"] = none := by
  have h := setupServer_removes_artifacts_when_allowed sampleSDK (sampleEnv 1 "fatal")
    "k" "s" false usedWorld (by decide) rfl (fun _ _ => rfl)
  exact ⟨h.1, h.2.1, h.2.2.2 _ (by decide)⟩

/-- C1 (counterexample): the deferred cleanup discards the errors of its removals, so the
artifacts can outlive the run.  In a read-only working directory that already holds an
inventory file, the inventory is rewritten, `./group_vars` cannot be made and the
inventory cannot be removed: it still exists when `setupServer` returns.  With a
read-only `group_vars` in use, `all.yml` cannot be written and `./group_vars`, its
`host.yml` and its `all.yml` still exist when `setupServer` returns. -/
theorem setupServer_leaves_artifacts_when_refused :
    (createAnsibleInventory sampleSDK readOnlyDirEnv staleWorld).1.2 = none ∧
    (setupServer sampleSDK readOnlyDirEnv "k" "s" false staleWorld).1 =
      some ("failed to create group_vars directory: " ++ "permission denied") ∧
    os.Stat (setupServer sampleSDK readOnlyDirEnv "k" "s" false staleWorld).2
      "./ioa_inventory.ini" ≠ none ∧
    (createAnsibleInventory sampleSDK lockedVarsEnv usedWorld).1.2 = none ∧
    (setupServer sampleSDK lockedVarsEnv "k" "s" false usedWorld).1 =
      some ("failed to write group vars file: " ++ "permission denied") ∧
    os.Stat (setupServer sampleSDK lockedVarsEnv "k" "s" false usedWorld).2
      "./group_vars" = some .dir ∧
    os.Stat (setupServer sampleSDK lockedVarsEnv "k" "s" false usedWorld).2
      "./group_vars/host.yml" = some (.file "region: eu\n") ∧
    os.Stat (setupServer sampleSDK lockedVarsEnv "k" "s" false usedWorld).2
      (filepath.Join ["./group_vars", "all.yml"]) = some (.file "old: true\n") := by
  decide

/-! ## Outcome of the external tool -/

/-- C2: when the inventory, the variables directory, the variables file and the playbook
location have all succeeded and the tool exits with status `code` and combined output
`output`, `setupServer` returns no error exactly when `code = 0` and `output` does not
contain "failed=1"; status 0 with the marker is an error, and so is any other status. -/
theorem setupServer_tool_outcome (n : NandaSDK) (env : Env) (a s : String) (v : Bool)
    (w : World) (p : String) (w1 w2 : World) (data : String) (w3 : World)
    (code : Nat) (output : String)
    (h1 : createAnsibleInventory n env w = ((p, none), w1))
    (h2 : os.MkdirAll env "./group_vars" w1 = (none, w2))
    (h3 : env.yamlMarshal (setupServer.groupVars n a s) = .ok data)
    (h4 : os.WriteFile env (filepath.Join ["./group_vars", "all.yml"]) data w2 = (none, w3))
    (h5 : findPlaybookPath n w3 ≠ "")
    (h6 : env.combinedOutput (setupServer.argv p (findPlaybookPath n w3) v)
      = .exited code output) :
    ((setupServer n env a s v w).1 = none ↔
      code = 0 ∧ strings.Contains output "failed=1" = false) ∧
    (code = 0 → strings.Contains output "failed=1" = true →
      (setupServer n env a s v w).1 = some "ansible playbook failed with errors") ∧
    (code ≠ 0 →
      (setupServer n env a s v w).1 =
        some ("ansible playbook failed: " ++ ("exit status " ++ toString code))) := by
  have hb := setupServer.body_run n env a s v w p w1 w2 data w3 h1 h2 h3 h4 h5
  rw [h6] at hb
  simp only [setupServer, hb]
  cases code with
  | zero =>
    cases hc : strings.Contains output "failed=1" <;>
      simp [ProcResult.err, ProcResult.output, hc]
  | succ k => simp [ProcResult.err, ProcResult.output]

/-- Witness for C2: every step succeeds in the sample surroundings and the tool exits
with status 0 and a recap without the marker, so `setupServer` returns no error. -/
theorem setupServer_tool_outcome_witness :
    (setupServer sampleSDK (sampleEnv 0 "ok=5 changed=2 failed=0") "k" "s" false
      sampleWorld).1 = none :=
  (setupServer_tool_outcome sampleSDK (sampleEnv 0 "ok=5 changed=2 failed=0") "k" "s" false
    sampleWorld
    (createAnsibleInventory sampleSDK (sampleEnv 0 "ok=5 changed=2 failed=0") sampleWorld).1.1
    (createAnsibleInventory sampleSDK (sampleEnv 0 "ok=5 changed=2 failed=0") sampleWorld).2
    (os.MkdirAll (sampleEnv 0 "ok=5 changed=2 failed=0") "./group_vars"
      (createAnsibleInventory sampleSDK (sampleEnv 0 "ok=5 changed=2 failed=0") sampleWorld).2).2
    "domain_name: a.example.com\n"
    (os.WriteFile (sampleEnv 0 "ok=5 changed=2 failed=0") "group_vars/all.yml"
      "domain_name: a.example.com\n"
      (os.MkdirAll (sampleEnv 0 "ok=5 changed=2 failed=0") "./group_vars"
        (createAnsibleInventory sampleSDK (sampleEnv 0 "ok=5 changed=2 failed=0")
          sampleWorld).2).2).2
    0 "ok=5 changed=2 failed=0"
    rfl rfl rfl rfl (by decide) rfl).1.mpr ⟨rfl, by decide⟩

/-- C10 (evaluation at the failing input): a run that exits with status 0 and whose
recap reports two failed tasks ("failed=2") is returned as a success. -/
theorem setupServer_accepts_failed_2 :
    strings.Contains "server : ok=3 changed=1 unreachable=0 failed=2 skipped=0" "failed=2"
      = true ∧
    (setupServer sampleSDK
      (sampleEnv 0 "server : ok=3 changed=1 unreachable=0 failed=2 skipped=0")
      "k" "s" false sampleWorld).1 = none := by
  decide

/-! ## External commands started -/

theorem World.execs_of_trace (w w1 : World) (op : Op) (h : w1.trace = w.trace ++ [op])
    (hop : ∀ argv, op ≠ .exec argv) : w1.execs = w.execs := by
  simp only [World.execs, h, List.filterMap_append]
  cases op <;> simp_all

theorem getPublicIP.loop_execs (env : Env) (l : List String) (w : World) :
    (getPublicIP.loop env l w).2.execs = w.execs := by
  induction l generalizing w with
  | nil => simp [getPublicIP.loop]
  | cons s rest ih =>
    have h := ih (w.log (.httpGet s))
    have h0 : (w.log (.httpGet s)).execs = w.execs :=
      World.execs_of_trace w _ (.httpGet s) rfl (by simp)
    rw [h0] at h
    unfold getPublicIP.loop
    simp only
    split
    · exact h
    · split
      · split
        · exact h
        · exact h0
      · exact h

theorem os.WriteFile_execs (env : Env) (name data : String) (w : World) :
    (os.WriteFile env name data w).2.execs = w.execs :=
  World.execs_of_trace w _ _ (os.WriteFile_spec env name data w).2.1 (by simp)

theorem os.MkdirAll_execs (env : Env) (name : String) (w : World) :
    (os.MkdirAll env name w).2.execs = w.execs :=
  World.execs_of_trace w _ _ (os.MkdirAll_spec env name w).2.1 (by simp)

theorem os.Remove_execs (env : Env) (name : String) (w : World) :
    (os.Remove env name w).2.execs = w.execs :=
  World.execs_of_trace w _ _ (os.Remove_spec env name w).2.1 (by simp)

theorem os.RemoveAll_execs (env : Env) (name : String) (w : World) :
    (os.RemoveAll env name w).2.execs = w.execs :=
  World.execs_of_trace w _ (.removeAll name) rfl (by simp)

theorem createAnsibleInventory_execs (n : NandaSDK) (env : Env) (w : World) :
    (createAnsibleInventory n env w).2.execs = w.execs := by
  have hl := getPublicIP.loop_execs env ipServices w
  rw [← getPublicIP] at hl
  unfold createAnsibleInventory
  rcases hg : getPublicIP n env w with ⟨⟨ip, e⟩, w1⟩
  rw [hg] at hl
  cases e with
  | some err => exact hl
  | none =>
    simp only
    have hw := os.WriteFile_execs env "./ioa_inventory.ini" (inventoryContent n ip) w1
    split
    · rename_i heq; rw [heq] at hw; exact hw.trans hl
    · rename_i heq; rw [heq] at hw; exact hw.trans hl

theorem setupServer.cleanup_execs (env : Env) (p g : String) (w : World) :
    (setupServer.cleanup env p g w).execs = w.execs := by
  unfold setupServer.cleanup
  have h1 : (if p ≠ "" then (os.Remove env p w).2 else w).execs = w.execs := by
    split
    · exact os.Remove_execs env p w
    · rfl
  simp only
  split
  · rw [os.RemoveAll_execs, os.Remove_execs, h1]
  · exact h1

/-! ## Playbook location -/

theorem first_split {α : Type} (Q : α → Prop) [DecidablePred Q] (l : List α) :
    (∀ x ∈ l, Q x) ∨
      ∃ pre x post, l = pre ++ x :: post ∧ (∀ y ∈ pre, Q y) ∧ ¬ Q x := by
  induction l with
  | nil => exact Or.inl (by simp)
  | cons a rest ih =>
    by_cases ha : Q a
    · rcases ih with hall | ⟨pre, x, post, hsplit, hpre, hx⟩
      · exact Or.inl (by simpa [ha] using hall)
      · refine Or.inr ⟨a :: pre, x, post, by simp [hsplit], ?_, hx⟩
        intro y hy
        rcases List.mem_cons.mp hy with rfl | hy
        · exact ha
        · exact hpre y hy
    · exact Or.inr ⟨[], a, rest, rfl, by simp, ha⟩

theorem findPlaybookPath.loop_none (w : World) (l : List String)
    (h : ∀ p ∈ l, os.Stat w p = none) : findPlaybookPath.loop w l = "" := by
  induction l with
  | nil => rfl
  | cons p rest ih =>
    rw [findPlaybookPath.loop, h p (List.mem_cons_self _ _)]
    simpa using ih (fun q hq => h q (List.mem_cons_of_mem _ hq))

theorem findPlaybookPath.loop_first (w : World) (pre : List String) (path : String)
    (post : List String) (hpre : ∀ q ∈ pre, os.Stat w q = none)
    (hex : os.Stat w path ≠ none) :
    findPlaybookPath.loop w (pre ++ path :: post) = filepath.Abs w.cwd path := by
  induction pre with
  | nil =>
    rw [List.nil_append, findPlaybookPath.loop]
    have : (os.Stat w path).isSome = true := Option.isSome_iff_ne_none.mpr hex
    simp [this]
  | cons q rest ih =>
    rw [List.cons_append, findPlaybookPath.loop, hpre q (List.mem_cons_self _ _)]
    simpa using ih (fun r hr => hpre r (List.mem_cons_of_mem _ hr))

/-- C5: `findPlaybookPath` returns the absolute form of the first candidate, in the fixed
order, that exists; in particular, when the development-relative candidate exists (and
the parent-relative one too), the result is the absolute form of `ansible/playbook.yml`. -/
theorem findPlaybookPath_first_existing (n : NandaSDK) (w : World)
    (pre : List String) (path : String) (post : List String)
    (hsplit : possiblePaths = pre ++ path :: post)
    (hpre : ∀ q ∈ pre, os.Stat w q = none)
    (hex : os.Stat w path ≠ none) :
    findPlaybookPath n w = filepath.Abs w.cwd path ∧
    (os.Stat w "ansible/playbook.yml" ≠ none → os.Stat w "../ansible/playbook.yml" ≠ none →
      findPlaybookPath n w = filepath.Abs w.cwd "ansible/playbook.yml") := by
  refine ⟨?_, ?_⟩
  · rw [findPlaybookPath, hsplit]
    exact findPlaybookPath.loop_first w pre path post hpre hex
  · intro hdev _
    exact findPlaybookPath.loop_first w [] "ansible/playbook.yml" _ (by simp) hdev

/-- Witness for C5: with only the system installation present the fourth candidate is
returned; with both `ansible/` and `../ansible/` present the first one is. -/
theorem findPlaybookPath_first_existing_witness :
    findPlaybookPath sampleSDK systemWorld = "/opt/go-nanda-sdk/ansible/playbook.yml" ∧
    findPlaybookPath sampleSDK twoPlaybooksWorld = "/srv/app/ansible/playbook.yml" :=
  ⟨(findPlaybookPath_first_existing sampleSDK systemWorld
      ["ansible/playbook.yml", "../ansible/playbook.yml",
       "/usr/local/share/go-nanda-sdk/ansible/playbook.yml"]
      "/opt/go-nanda-sdk/ansible/playbook.yml" ["./ansible/playbook.yml"]
      rfl (by decide) (by decide)).1,
   (findPlaybookPath_first_existing sampleSDK twoPlaybooksWorld
      [] "ansible/playbook.yml" _ rfl (by decide) (by decide)).2 (by decide) (by decide)⟩

/-- C6: in a world whose working directory is an absolute path, `findPlaybookPath` returns
the empty string exactly when none of the five candidates exists, and whenever some
candidate exists the result is a non-empty path that itself exists. -/
theorem findPlaybookPath_empty_iff_none (n : NandaSDK) (w : World)
    (habs : filepath.IsAbs w.cwd = true) :
    (findPlaybookPath n w = "" ↔ ∀ p ∈ possiblePaths, os.Stat w p = none) ∧
    ((∃ p ∈ possiblePaths, os.Stat w p ≠ none) →
      findPlaybookPath n w ≠ "" ∧ os.Stat w (findPlaybookPath n w) ≠ none) := by
  rcases first_split (fun p => os.Stat w p = none) possiblePaths with
    hall | ⟨pre, path, post, hsplit, hpre, hex⟩
  · have h := findPlaybookPath.loop_none w possiblePaths hall
    rw [← findPlaybookPath.eq_1 n] at h
    refine ⟨⟨fun _ => hall, fun _ => h⟩, ?_⟩
    rintro ⟨p, hp, hne⟩
    exact absurd (hall p hp) hne
  · have h := findPlaybookPath.loop_first w pre path post hpre hex
    rw [← hsplit, ← findPlaybookPath.eq_1 n] at h
    have hmem : path ∈ possiblePaths := by rw [hsplit]; simp
    have hpath : path ≠ "" := by
      intro e
      rw [e] at hmem
      exact absurd hmem (by decide)
    have hne : findPlaybookPath n w ≠ "" := by
      rw [h]; exact filepath.Abs_ne_empty w.cwd path hpath
    have hstat : os.Stat w (findPlaybookPath n w) ≠ none := by
      rw [h, os.Stat, resolve_Abs w.cwd path habs]
      exact hex
    refine ⟨⟨fun e => absurd e hne, fun hall => absurd (hall path hmem) hex⟩, ?_⟩
    exact fun _ => ⟨hne, hstat⟩

/-- Witness for C6: the situations of `TestFindPlaybookPath` and
`TestFindPlaybookPathNotFound`. -/
theorem findPlaybookPath_empty_iff_none_witness :
    findPlaybookPath sampleSDK bareWorld = "" ∧
    findPlaybookPath sampleSDK sampleWorld ≠ "" ∧
    os.Stat sampleWorld (findPlaybookPath sampleSDK sampleWorld) ≠ none :=
  ⟨(findPlaybookPath_empty_iff_none sampleSDK bareWorld rfl).1.mpr (by decide),
   (findPlaybookPath_empty_iff_none sampleSDK sampleWorld rfl).2
     ⟨"ansible/playbook.yml", by decide, by decide⟩⟩

/-- The model of `strings.Contains` is the contiguous-sublist relation. -/
theorem strings.Contains_iff (s substr : String) :
    strings.Contains s substr = true ↔ substr.data <:+: s.data := by
  simp only [strings.Contains, List.any_eq_true, List.mem_tails, List.isPrefixOf_iff_prefix]
  rw [List.infix_iff_prefix_suffix]
  constructor <;> rintro ⟨t, h1, h2⟩ <;> exact ⟨t, h2, h1⟩

/-! ## The artifacts never are playbook candidates -/

theorem resolve_candidate_last (cwd : String) :
    ∀ c ∈ possiblePaths, (resolve cwd c).getLast? = some "playbook.yml" := by
  have ha : ∀ acc, cleanStep true acc "ansible".data = "ansible".data :: acc :=
    fun acc => cleanStep_plain acc _ (by decide)
  have hb : ∀ acc, cleanStep true acc "playbook.yml".data = "playbook.yml".data :: acc :=
    fun acc => cleanStep_plain acc _ (by decide)
  have h1 : (resolve cwd "ansible/playbook.yml").getLast? = some "playbook.yml" := by
    rw [resolve_relative _ _ (by decide)]
    have hs : splitSlash "ansible/playbook.yml".data = ["ansible".data, "playbook.yml".data] := by
      decide
    rw [hs]
    simp only [List.foldl_cons, List.foldl_nil, ha, hb, List.reverse_cons, List.map_append,
      List.map_cons, List.map_nil, List.getLast?_append, List.getLast?_singleton]
    rfl
  have h2 : (resolve cwd "../ansible/playbook.yml").getLast? = some "playbook.yml" := by
    rw [resolve_relative _ _ (by decide)]
    have hs : splitSlash "../ansible/playbook.yml".data =
        [['.', '.'], "ansible".data, "playbook.yml".data] := by decide
    rw [hs]
    simp only [List.foldl_cons, List.foldl_nil, ha, hb, List.reverse_cons, List.map_append,
      List.map_cons, List.map_nil, List.getLast?_append, List.getLast?_singleton]
    rfl
  have h5 : (resolve cwd "./ansible/playbook.yml").getLast? = some "playbook.yml" := by
    rw [resolve_relative _ _ (by decide)]
    have hs : splitSlash "./ansible/playbook.yml".data =
        [['.'], "ansible".data, "playbook.yml".data] := by decide
    rw [hs]
    simp only [List.foldl_cons, List.foldl_nil, ha, hb, List.reverse_cons, List.map_append,
      List.map_cons, List.map_nil, List.getLast?_append, List.getLast?_singleton]
    rfl
  have h3 : (resolve cwd "/usr/local/share/go-nanda-sdk/ansible/playbook.yml").getLast?
      = some "playbook.yml" := by rfl
  have h4 : (resolve cwd "/opt/go-nanda-sdk/ansible/playbook.yml").getLast?
      = some "playbook.yml" := by rfl
  intro c hc
  simp only [possiblePaths, List.mem_cons, List.mem_singleton, List.not_mem_nil, or_false] at hc
  rcases hc with rfl | rfl | rfl | rfl | rfl
  · exact h1
  · exact h2
  · exact h3
  · exact h4
  · exact h5

theorem os.WriteFile_ok_parent (env : Env) (name data : String) (w : World)
    (h : (os.WriteFile env name data w).1 = none) :
    FS.node w.fs (resolve w.cwd name).dropLast = some .dir := by
  unfold os.WriteFile at h
  simp only at h
  split at h
  · simp at h
  · split at h
    · simp at h
    · split at h
      · rename_i hc
        exact hc.2
      · simp at h

theorem FS.mkdirAll_of_dir (denied : Path → Option GoError) (rp : List String) (fs : FS)
    (h : FS.node fs rp.reverse = some .dir) : FS.mkdirAll denied rp fs = (none, fs) := by
  cases rp with
  | nil =>
    rw [List.reverse_nil] at h
    simp [FS.mkdirAll, h]
  | cons c r =>
    unfold FS.mkdirAll
    rw [h]

theorem FS.mkdirAll_parent_dir (denied : Path → Option GoError) (c : String)
    (rparent : List String) (fs : FS) (h : FS.node fs rparent.reverse = some .dir) :
    (FS.mkdirAll denied (c :: rparent) fs).2 = fs ∨
    (FS.mkdirAll denied (c :: rparent) fs).2 = FS.put fs (c :: rparent).reverse .dir := by
  unfold FS.mkdirAll
  rw [FS.mkdirAll_of_dir denied rparent fs h]
  split
  · exact Or.inl rfl
  · exact Or.inl rfl
  · simp only
    split
    · exact Or.inl rfl
    · exact Or.inr rfl

theorem FS.node_put_other_last (fs : FS) (base : Path) (c : String) (x : Node) (q : Path)
    (hq : q.getLast? = some "playbook.yml") (hc : c ≠ "playbook.yml") :
    FS.node (FS.put fs (base ++ [c]) x) q = FS.node fs q := by
  rw [FS.node_put]
  have hne : ¬ base ++ [c] = q := by
    intro e
    rw [← e] at hq
    simp at hq
    exact hc hq
  simp [hne]

theorem createAnsibleInventory_frame (n : NandaSDK) (env : Env) (w : World)
    (h : (createAnsibleInventory n env w).1.2 = none) :
    FS.node (createAnsibleInventory n env w).2.fs (resolve w.cwd ".") = some .dir ∧
    ∀ q, q.getLast? = some "playbook.yml" →
      FS.node (createAnsibleInventory n env w).2.fs q = FS.node w.fs q := by
  unfold createAnsibleInventory at h ⊢
  have hf := getPublicIP.loop_frame env ipServices w
  rw [← getPublicIP] at hf
  rcases hg : getPublicIP n env w with ⟨⟨ip, e⟩, w1⟩
  rw [hg] at hf h
  simp only at hf
  cases e with
  | some err => simp at h
  | none =>
    simp only at h ⊢
    have hw := os.WriteFile_spec env "./ioa_inventory.ini" (inventoryContent n ip) w1
    have hpar := os.WriteFile_ok_parent env "./ioa_inventory.ini" (inventoryContent n ip) w1
    rcases hr : os.WriteFile env "./ioa_inventory.ini" (inventoryContent n ip) w1 with ⟨e2, w2⟩
    rw [hr] at hw h hpar
    simp only at hw hpar
    cases e2 with
    | some err => simp at h
    | none =>
      have hpar1 := hpar rfl
      rw [hf.1, resolve_inventory, List.dropLast_concat, hf.2] at hpar1
      rcases hw.2.2 with ⟨_, hfs⟩ | ⟨hne, _⟩
      · simp only
        rw [hfs, hf.1, hf.2, resolve_inventory]
        refine ⟨?_, ?_⟩
        · rw [FS.node_put]
          have hne : ¬ resolve w.cwd "." ++ ["ioa_inventory.ini"] = resolve w.cwd "." := by
            intro e
            have := congrArg List.length e
            simp at this
          simp [hne, hpar1]
        · intro q hq
          exact FS.node_put_other_last _ _ _ _ q hq (by decide)
      · exact absurd rfl hne

/-- The three steps before playbook location leave every playbook candidate as it was. -/
theorem setupServer.steps_keep_candidates (n : NandaSDK) (env : Env) (w : World)
    (p : String) (w1 : World) (e2 : Option GoError) (w2 : World) (data : String)
    (e4 : Option GoError) (w3 : World)
    (h1 : createAnsibleInventory n env w = ((p, none), w1))
    (h2 : os.MkdirAll env "./group_vars" w1 = (e2, w2))
    (h4 : os.WriteFile env (filepath.Join ["./group_vars", "all.yml"]) data w2 = (e4, w3)) :
    ∀ c ∈ possiblePaths, os.Stat w3 c = os.Stat w c := by
  have hok : (createAnsibleInventory n env w).1.2 = none := by rw [h1]
  obtain ⟨_, hcwd1, _⟩ := createAnsibleInventory_ok n env w hok
  obtain ⟨hdir, hfr1⟩ := createAnsibleInventory_frame n env w hok
  rw [h1] at hcwd1 hdir hfr1
  simp only at hcwd1 hdir hfr1
  have hcwd2 : w2.cwd = w1.cwd := by
    have := (os.MkdirAll_spec env "./group_vars" w1).1
    rw [h2] at this
    exact this
  have hfs2 : w2.fs = w1.fs ∨ w2.fs = FS.put w1.fs (resolve w.cwd "." ++ ["group_vars"]) .dir := by
    have hm : w2.fs = (FS.mkdirAll env.mkdirDenied (resolve w1.cwd "./group_vars").reverse
        w1.fs).2 := by
      have := congrArg (fun r => r.2.fs) h2
      simpa [os.MkdirAll, World.log] using this.symm
    rw [hcwd1, resolve_groupVarsDir, List.reverse_append, List.reverse_singleton,
      List.singleton_append] at hm
    have := FS.mkdirAll_parent_dir env.mkdirDenied "group_vars" (resolve w.cwd ".").reverse
      w1.fs (by rw [List.reverse_reverse]; exact hdir)
    rw [← hm] at this
    simpa using this
  have hw := os.WriteFile_spec env (filepath.Join ["./group_vars", "all.yml"]) data w2
  rw [h4] at hw
  simp only at hw
  have hcwd3 : w3.cwd = w.cwd := hw.1.trans (hcwd2.trans hcwd1)
  have hfr2 : ∀ q, q.getLast? = some "playbook.yml" → FS.node w2.fs q = FS.node w.fs q := by
    intro q hq
    rcases hfs2 with e | e
    · rw [e]; exact hfr1 q hq
    · rw [e, FS.node_put_other_last _ _ _ _ q hq (by decide)]; exact hfr1 q hq
  have hfr3 : ∀ q, q.getLast? = some "playbook.yml" → FS.node w3.fs q = FS.node w.fs q := by
    intro q hq
    rcases hw.2.2 with ⟨_, e⟩ | ⟨_, e⟩
    · rw [e, filepath.Join_groupVars_all, hcwd2, hcwd1, resolve_groupVarsPath]
      have : resolve w.cwd "." ++ ["group_vars", "all.yml"] =
          (resolve w.cwd "." ++ ["group_vars"]) ++ ["all.yml"] := by simp
      rw [this, FS.node_put_other_last _ _ _ _ q hq (by decide)]
      exact hfr2 q hq
    · rw [e]; exact hfr2 q hq
  intro c hc
  rw [os.Stat, os.Stat, hcwd3]
  exact hfr3 _ (resolve_candidate_last w.cwd c hc)

/-! ## Short-circuiting of the steps -/

/-- Either the body returns an error before any external command is started, or every
step up to playbook location succeeded. -/
theorem setupServer.body_cases (n : NandaSDK) (env : Env) (a s : String) (v : Bool)
    (w : World) :
    ((setupServer n env a s v w).1 ≠ none ∧
      (setupServer.body n env a s v w).2.execs = w.execs) ∨
    ∃ p w1 w2 data w3, createAnsibleInventory n env w = ((p, none), w1) ∧
      os.MkdirAll env "./group_vars" w1 = (none, w2) ∧
      env.yamlMarshal (setupServer.groupVars n a s) = .ok data ∧
      os.WriteFile env (filepath.Join ["./group_vars", "all.yml"]) data w2 = (none, w3) ∧
      findPlaybookPath n w3 ≠ "" := by
  have e1 := createAnsibleInventory_execs n env w
  rcases h1 : createAnsibleInventory n env w with ⟨⟨p, e⟩, w1⟩
  rw [h1] at e1
  simp only at e1
  cases e with
  | some err =>
    left
    simp only [setupServer, setupServer.body_inventory_error n env a s v w p err w1 h1]
    exact ⟨by simp, e1⟩
  | none =>
    have e2 := os.MkdirAll_execs env "./group_vars" w1
    rcases h2 : os.MkdirAll env "./group_vars" w1 with ⟨em, w2⟩
    rw [h2] at e2
    simp only at e2
    cases em with
    | some err =>
      left
      simp only [setupServer, setupServer.body_mkdir_error n env a s v w p w1 err w2 h1 h2]
      exact ⟨by simp, e2.trans e1⟩
    | none =>
      cases h3 : env.yamlMarshal (setupServer.groupVars n a s) with
      | error err =>
        left
        simp only [setupServer,
          setupServer.body_marshal_error n env a s v w p w1 w2 err h1 h2 h3]
        exact ⟨by simp, e2.trans e1⟩
      | ok data =>
        have e3 := os.WriteFile_execs env (filepath.Join ["./group_vars", "all.yml"]) data w2
        rcases h4 : os.WriteFile env (filepath.Join ["./group_vars", "all.yml"]) data w2
          with ⟨e4, w3⟩
        rw [h4] at e3
        simp only at e3
        cases e4 with
        | some err =>
          left
          simp only [setupServer,
            setupServer.body_write_error n env a s v w p w1 w2 data err w3 h1 h2 h3 h4]
          exact ⟨by simp, e3.trans (e2.trans e1)⟩
        | none =>
          by_cases h5 : findPlaybookPath n w3 = ""
          · left
            simp only [setupServer,
              setupServer.body_no_playbook n env a s v w p w1 w2 data w3 h1 h2 h3 h4 h5]
            exact ⟨by simp, e3.trans (e2.trans e1)⟩
          · exact Or.inr ⟨p, w1, w2, data, w3, rfl, h2, rfl, h4, h5⟩

/-- C9: the steps of `setupServer` short-circuit.  For each step that can fail, the
returned error is that step's, and the returned world is the one the failing step left,
followed only by the deferred cleanup: (1) address resolution fails: nothing but the
lookups happened; if every endpoint fails the filesystem and working directory are those
of the start and only the three requests were made; (2) the inventory write is refused:
the world is the one the write left; (3) the variables directory cannot be made;
(4) the variables file cannot be written; (5) no playbook is found: the error is
"ansible playbook not found" and no external command has been started; (5b) if none of
the five candidates exists in the world the run starts from, `setupServer` returns an
error without starting any external command, and that error is "ansible playbook not found"
whenever the steps before playbook location succeeded.  (6) `Setup` returns an error
exactly when `setupServer` does. -/
theorem setupServer_short_circuits (n : NandaSDK) (env : Env) (a s : String) (v : Bool)
    (w : World) :
    (∀ e, (getPublicIP n env w).1.2 = some e →
      setupServer n env a s v w =
        (some ("failed to create inventory: " ++ ("failed to get public IP: " ++ e)),
          (getPublicIP n env w).2)) ∧
    ((∀ u ∈ ipServices, (env.httpGet u).accepted = none) →
      (setupServer n env a s v w).1 ≠ none ∧
      (setupServer n env a s v w).2 =
        { w with trace := w.trace ++ ipServices.map Op.httpGet }) ∧
    (∀ ip w1 e w2, getPublicIP n env w = ((ip, none), w1) →
      os.WriteFile env "./ioa_inventory.ini" (inventoryContent n ip) w1 = (some e, w2) →
      setupServer n env a s v w =
        (some ("failed to create inventory: " ++ ("failed to write inventory file: " ++ e)),
          w2)) ∧
    (∀ p w1 e w2, createAnsibleInventory n env w = ((p, none), w1) →
      os.MkdirAll env "./group_vars" w1 = (some e, w2) →
      setupServer n env a s v w =
        (some ("failed to create group_vars directory: " ++ e),
          setupServer.cleanup env p "./group_vars" w2)) ∧
    (∀ p w1 w2 data e w3, createAnsibleInventory n env w = ((p, none), w1) →
      os.MkdirAll env "./group_vars" w1 = (none, w2) →
      env.yamlMarshal (setupServer.groupVars n a s) = .ok data →
      os.WriteFile env (filepath.Join ["./group_vars", "all.yml"]) data w2 = (some e, w3) →
      setupServer n env a s v w =
        (some ("failed to write group vars file: " ++ e),
          setupServer.cleanup env p "./group_vars" w3)) ∧
    (∀ p w1 w2 data w3, createAnsibleInventory n env w = ((p, none), w1) →
      os.MkdirAll env "./group_vars" w1 = (none, w2) →
      env.yamlMarshal (setupServer.groupVars n a s) = .ok data →
      os.WriteFile env (filepath.Join ["./group_vars", "all.yml"]) data w2 = (none, w3) →
      findPlaybookPath n w3 = "" →
      setupServer n env a s v w =
        (some "ansible playbook not found", setupServer.cleanup env p "./group_vars" w3) ∧
      (setupServer n env a s v w).2.execs = w.execs) ∧
    ((∀ c ∈ possiblePaths, os.Stat w c = none) →
      (setupServer n env a s v w).1 ≠ none ∧
      (setupServer n env a s v w).2.execs = w.execs ∧
      ∀ p w1 w2 data w3, createAnsibleInventory n env w = ((p, none), w1) →
        os.MkdirAll env "./group_vars" w1 = (none, w2) →
        env.yamlMarshal (setupServer.groupVars n a s) = .ok data →
        os.WriteFile env (filepath.Join ["./group_vars", "all.yml"]) data w2 = (none, w3) →
        (setupServer n env a s v w).1 = some "ansible playbook not found") ∧
    ((Setup n env a s v w).1 ≠ none ↔ (setupServer n env a s v w).1 ≠ none) := by
  have part1 : ∀ e, (getPublicIP n env w).1.2 = some e →
      setupServer n env a s v w =
        (some ("failed to create inventory: " ++ ("failed to get public IP: " ++ e)),
          (getPublicIP n env w).2) := by
    intro e he
    rcases hg : getPublicIP n env w with ⟨⟨ip, e1⟩, w1⟩
    rw [hg] at he
    simp only at he
    subst he
    have hc : createAnsibleInventory n env w =
        (("", some ("failed to get public IP: " ++ e)), w1) := by
      simp [createAnsibleInventory, hg]
    simp [setupServer, setupServer.body_inventory_error n env a s v w _ _ _ hc,
      setupServer.cleanup]
  have part5 : ∀ p w1 w2 data w3, createAnsibleInventory n env w = ((p, none), w1) →
      os.MkdirAll env "./group_vars" w1 = (none, w2) →
      env.yamlMarshal (setupServer.groupVars n a s) = .ok data →
      os.WriteFile env (filepath.Join ["./group_vars", "all.yml"]) data w2 = (none, w3) →
      findPlaybookPath n w3 = "" →
      setupServer n env a s v w =
        (some "ansible playbook not found", setupServer.cleanup env p "./group_vars" w3) ∧
      (setupServer n env a s v w).2.execs = w.execs := by
    intro p w1 w2 data w3 h1 h2 h3 h4 h5
    have hb := setupServer.body_no_playbook n env a s v w p w1 w2 data w3 h1 h2 h3 h4 h5
    have heq : setupServer n env a s v w =
        (some "ansible playbook not found", setupServer.cleanup env p "./group_vars" w3) := by
      simp [setupServer, hb]
    refine ⟨heq, ?_⟩
    have e1 := createAnsibleInventory_execs n env w
    have e2 := os.MkdirAll_execs env "./group_vars" w1
    have e3 := os.WriteFile_execs env (filepath.Join ["./group_vars", "all.yml"]) data w2
    rw [h1] at e1
    rw [h2] at e2
    rw [h4] at e3
    rw [heq]
    simp only [setupServer.cleanup_execs]
    exact e3.trans (e2.trans e1)
  have nofind : (∀ c ∈ possiblePaths, os.Stat w c = none) →
      ∀ p w1 w2 data w3, createAnsibleInventory n env w = ((p, none), w1) →
        os.MkdirAll env "./group_vars" w1 = (none, w2) →
        os.WriteFile env (filepath.Join ["./group_vars", "all.yml"]) data w2 = (none, w3) →
        findPlaybookPath n w3 = "" := by
    intro hnone p w1 w2 data w3 h1 h2 h4
    have hk := setupServer.steps_keep_candidates n env w p w1 none w2 data none w3 h1 h2 h4
    exact findPlaybookPath.loop_none w3 possiblePaths
      (fun c hc => (hk c hc).trans (hnone c hc))
  refine ⟨part1, ?_, ?_, ?_, ?_, part5, ?_, ?_⟩
  · intro hall
    have hl := getPublicIP.loop_all_fail env ipServices w hall
    rw [← getPublicIP] at hl
    have h := part1 "failed to detect public IP from any service" (by rw [hl])
    rw [h, hl]
    exact ⟨by simp, rfl⟩
  · intro ip w1 e w2 hg hw
    have hc : createAnsibleInventory n env w =
        (("", some ("failed to write inventory file: " ++ e)), w2) := by
      simp [createAnsibleInventory, hg, hw]
    simp [setupServer, setupServer.body_inventory_error n env a s v w _ _ _ hc,
      setupServer.cleanup]
  · intro p w1 e w2 h1 h2
    simp [setupServer, setupServer.body_mkdir_error n env a s v w p w1 e w2 h1 h2]
  · intro p w1 w2 data e w3 h1 h2 h3 h4
    simp [setupServer, setupServer.body_write_error n env a s v w p w1 w2 data e w3 h1 h2 h3 h4]
  · intro hnone
    have hfin : (setupServer n env a s v w).2.execs =
        (setupServer.body n env a s v w).2.execs := by
      simp only [setupServer, setupServer.cleanup_execs]
    rcases setupServer.body_cases n env a s v w with ⟨herr, hex⟩ |
      ⟨p, w1, w2, data, w3, h1, h2, h3, h4, h5⟩
    · refine ⟨herr, hfin.trans hex, ?_⟩
      intro p w1 w2 data w3 h1 h2 h3 h4
      rw [(part5 p w1 w2 data w3 h1 h2 h3 h4 (nofind hnone p w1 w2 data w3 h1 h2 h4)).1]
    · exact absurd (nofind hnone p w1 w2 data w3 h1 h2 h4) h5
  · unfold Setup
    rcases setupServer n env a s v w with ⟨e, w1⟩
    cases e <;> simp

/-- Witness for C9: one run for each failing step. -/
theorem setupServer_short_circuits_witness :
    setupServer sampleSDK offlineEnv "k" "s" false sampleWorld =
      (some ("failed to create inventory: " ++ ("failed to get public IP: " ++
          "failed to detect public IP from any service")),
        { sampleWorld with
          trace := [.httpGet "https://api.ipify.org", .httpGet "https://ifconfig.me/ip",
                    .httpGet "https://icanhazip.com"] }) ∧
    (setupServer sampleSDK readOnlyEnv "k" "s" false sampleWorld).1 =
      some ("failed to create inventory: " ++
        ("failed to write inventory file: " ++ "permission denied")) ∧
    (setupServer sampleSDK noMkdirEnv "k" "s" false sampleWorld).1 =
      some ("failed to create group_vars directory: " ++ "permission denied") ∧
    (setupServer sampleSDK noVarsEnv "k" "s" false sampleWorld).1 =
      some ("failed to write group vars file: " ++ "disk full") ∧
    (setupServer sampleSDK (sampleEnv 0 "") "k" "s" false bareWorld).1 =
      some "ansible playbook not found" ∧
    (setupServer sampleSDK (sampleEnv 0 "") "k" "s" false bareWorld).2.execs = [] ∧
    (setupServer sampleSDK (sampleEnv 0 "") "k" "s" true bareWorld).1 ≠ none := by
  have hA := (setupServer_short_circuits sampleSDK offlineEnv "k" "s" false sampleWorld).2.1
    (by decide)
  have hA1 := (setupServer_short_circuits sampleSDK offlineEnv "k" "s" false sampleWorld).1
    "failed to detect public IP from any service" rfl
  have hB := (setupServer_short_circuits sampleSDK readOnlyEnv "k" "s" false
    sampleWorld).2.2.1 "203.0.113.5"
    (getPublicIP sampleSDK readOnlyEnv sampleWorld).2 "permission denied"
    (os.WriteFile readOnlyEnv "./ioa_inventory.ini" (inventoryContent sampleSDK "203.0.113.5")
      (getPublicIP sampleSDK readOnlyEnv sampleWorld).2).2 rfl rfl
  have hC := (setupServer_short_circuits sampleSDK noMkdirEnv "k" "s" false
    sampleWorld).2.2.2.1 "./ioa_inventory.ini"
    (createAnsibleInventory sampleSDK noMkdirEnv sampleWorld).2 "permission denied"
    (os.MkdirAll noMkdirEnv "./group_vars"
      (createAnsibleInventory sampleSDK noMkdirEnv sampleWorld).2).2 rfl rfl
  have hD := (setupServer_short_circuits sampleSDK noVarsEnv "k" "s" false
    sampleWorld).2.2.2.2.1 "./ioa_inventory.ini"
    (createAnsibleInventory sampleSDK noVarsEnv sampleWorld).2
    (os.MkdirAll noVarsEnv "./group_vars"
      (createAnsibleInventory sampleSDK noVarsEnv sampleWorld).2).2
    "domain_name: a.example.com\n" "disk full"
    (os.WriteFile noVarsEnv "group_vars/all.yml" "domain_name: a.example.com\n"
      (os.MkdirAll noVarsEnv "./group_vars"
        (createAnsibleInventory sampleSDK noVarsEnv sampleWorld).2).2).2 rfl rfl rfl rfl
  have hE := (setupServer_short_circuits sampleSDK (sampleEnv 0 "") "k" "s" false
    bareWorld).2.2.2.2.2.1 "./ioa_inventory.ini"
    (createAnsibleInventory sampleSDK (sampleEnv 0 "") bareWorld).2
    (os.MkdirAll (sampleEnv 0 "") "./group_vars"
      (createAnsibleInventory sampleSDK (sampleEnv 0 "") bareWorld).2).2
    "domain_name: a.example.com\n"
    (os.WriteFile (sampleEnv 0 "") "group_vars/all.yml" "domain_name: a.example.com\n"
      (os.MkdirAll (sampleEnv 0 "") "./group_vars"
        (createAnsibleInventory sampleSDK (sampleEnv 0 "") bareWorld).2).2).2
    rfl rfl rfl rfl rfl
  have hF := (setupServer_short_circuits sampleSDK (sampleEnv 0 "") "k" "s" true
    bareWorld).2.2.2.2.2.2.1 (by decide)
  refine ⟨?_, ?_, ?_, ?_, ?_, ?_, hF.1⟩
  · rw [hA1]; exact Prod.ext rfl hA.2
  · rw [hB]
  · rw [hC]
  · rw [hD]
  · rw [hE.1]
  · rw [hE.2]; rfl


end Nanda
